import Mathlib

/-!
Shallow embedding of the Ownership & Economy Engine of the repository
(src/database.py and src/game_logic.py), together with theorems settling
the specification claims about it.

Modelling choices:
* SQLite rows of the users table become an association list from
  telegram id to an Account record; an SQL UPDATE on a key maps over the
  list (an UPDATE whose key is absent is a no-op, as in SQL).
* Timestamps are natural numbers; the wall clock is an explicit argument.
* Python int arithmetic on prices uses exact floor arithmetic:
  int(p * 1.3) = 13*p/10, int(c * 1.5) = 3*c/2, int(c * 0.8) = 4*c/5,
  int(p * 0.35) = 7*p/20 (Nat floor division).
* The REAL columns points and income_multiplier are rationals; Python's
  round(x, 2) becomes rounding x*100 to an integer.
* Each fallible engine operation returns its outcome together with the
  post-state (the state after its committed writes, also on failure,
  since some checks have side effects such as lazy shield clearing).
-/

/-- One row of the users table (the columns the engine operations read
and write; audit-only columns are kept in separate tables below). -/
structure Account where
  balance : Int
  price : Nat
  ownerId : Option Nat
  points : ℚ
  shieldActive : Bool
  shieldUntil : Option Nat
deriving DecidableEq

/-- One row of the prisoner_upgrades table. -/
structure UpgradeTrack where
  level : Nat
  multiplier : ℚ
  nextCost : Nat
  invested : Nat
deriving DecidableEq

/-- One row of the ownership_history table. -/
structure OwnRecord where
  prisonerId : Nat
  oldOwner : Option Nat
  newOwner : Option Nat
  pricePaid : Nat
  timestamp : Nat
deriving DecidableEq

/-- One row of the work_assignments table. -/
structure WorkAssignment where
  ownerId : Nat
  prisonerId : Nat
  endTime : Nat
  expectedReward : Nat
  completed : Bool
deriving DecidableEq

/-- The database state: the tables the engine operations touch. -/
structure DB where
  users : List (Nat × Account)
  upgrades : List (Nat × UpgradeTrack)
  history : List OwnRecord
  assignments : List WorkAssignment
deriving DecidableEq

/-- Lookup of the first row with a given key in an association list
(models SELECT by primary key). -/
def findUser : List (Nat × Account) → Nat → Option Account
  | [], _ => none
  | (k, a) :: rest, uid => if k = uid then some a else findUser rest uid

/-- get_user: SELECT * FROM users WHERE telegram_id = ?. -/
def get_user (db : DB) (uid : Nat) : Option Account :=
  findUser db.users uid

/-- An SQL UPDATE users SET ... WHERE telegram_id = ?: applies f to every
row with the given key (a no-op when the key is absent). -/
def updateUser (db : DB) (uid : Nat) (f : Account → Account) : DB :=
  { db with users := db.users.map (fun p => if p.1 = uid then (p.1, f p.2) else p) }

/-- Appends one ownership_history row. -/
def appendHistory (d : DB) (r : OwnRecord) : DB :=
  { d with history := d.history ++ [r] }

/-- get_my_prisoners count: SELECT ... FROM users WHERE owner_id = ?. -/
def ownedCount (db : DB) (uid : Nat) : Nat :=
  (db.users.filter (fun p => decide (p.2.ownerId = some uid))).length

/-- Thirty days in seconds, the window of the recent-trades query. -/
def thirtyDays : Nat := 2592000

/-- COUNT(*) FROM ownership_history WHERE prisoner_id = ? AND timestamp
> datetime('now', '-30 days'). -/
def recentTradeCount (db : DB) (pid now : Nat) : Nat :=
  (db.history.filter
    (fun r => decide (r.prisonerId = pid) && decide (now < r.timestamp + thirtyDays))).length

/-- Outcome of an engine operation: success or a recoverable error kind,
in both cases carrying the database state after the call. -/
inductive EngineError where
  | notFound
  | selfTrade
  | alreadyOwned
  | notOwned
  | notOwner
  | shielded
  | alreadyShielded
  | insufficientFunds
  | nothingReady
  | crash
deriving DecidableEq

inductive EngineResult where
  | ok (db : DB)
  | err (e : EngineError) (db : DB)
deriving DecidableEq

/-- Post-state of an operation, on success and on failure alike. -/
def EngineResult.db : EngineResult → DB
  | .ok d => d
  | .err _ d => d

def EngineResult.isOk : EngineResult → Bool
  | .ok _ => true
  | .err _ _ => false

def EngineResult.errCode : EngineResult → Option EngineError
  | .ok _ => none
  | .err e _ => some e

/-- check_shield_status: reads the shield pair and compares the expiry
against the wall clock; an expired shield is cleared as a side effect
(shield_active := FALSE, shield_until := NULL). Returns has_shield and
the possibly-updated state. -/
def check_shield_status (db : DB) (uid now : Nat) : Bool × DB :=
  match get_user db uid with
  | none => (false, db)
  | some u =>
    if u.shieldActive then
      match u.shieldUntil with
      | none => (false, db)
      | some t =>
        if now < t then (true, db)
        else
          (false, updateUser db uid
            (fun a => { a with shieldActive := false, shieldUntil := none }))
    else (false, db)

/-- The fresh row inserted for a new user (the column defaults of the
users table). -/
def newAcct : Account :=
  { balance := 300, price := 100, ownerId := none, points := 0,
    shieldActive := false, shieldUntil := none }

/-- INSERT INTO users for a fresh id. -/
def insertNew (db : DB) (uid : Nat) : DB :=
  { db with users := db.users ++ [(uid, newAcct)] }

/-- create_user: inserts a fresh row (balance 300, price 100, no owner);
when a truthy referrer id is given, sets owner_id to the referrer and
appends an ownership_history row with price 0. Returns False when the
id already exists (IntegrityError). -/
def create_user (uid : Nat) (referrerId : Option Nat) (now : Nat) (db : DB) : Bool × DB :=
  if (get_user db uid).isSome then (false, db)
  else
    match referrerId with
    | some r =>
      if r ≠ 0 then
        (true, appendHistory
          (updateUser (insertNew db uid) uid (fun a => { a with ownerId := some r }))
          { prisonerId := uid, oldOwner := none, newOwner := some r,
            pricePaid := 0, timestamp := now })
      else (true, insertNew db uid)
    | none => (true, insertNew db uid)

/-- transfer_money: one combined failure when the sender row is missing
or the balance is below the amount; otherwise debits the sender and
credits the receiver by the amount verbatim (no sign check). -/
def transfer_money (fromId toId : Nat) (amount : Int) (db : DB) : EngineResult :=
  match get_user db fromId with
  | none => .err .insufficientFunds db
  | some sender =>
    if sender.balance < amount then .err .insufficientFunds db
    else
      let db1 := updateUser db fromId (fun a => { a with balance := a.balance - amount })
      let db2 := updateUser db1 toId (fun a => { a with balance := a.balance + amount })
      .ok db2

/-- The price buy_prisoner stores for the purchased asset:
int(price*1.3) further multiplied by the dynamic surcharge (+0.1 when
the recent-trade count within 30 days is at least 3, +0.15 when the
prisoner owns at least 5 others, both added to the 1.0 baseline),
truncated. -/
def bumpedPrice (db1 : DB) (pid now price : Nat) : Nat :=
  13 * price / 10 *
    (20 + (if 3 ≤ recentTradeCount db1 pid now then 2 else 0)
        + (if 5 ≤ ownedCount db1 pid then 3 else 0)) / 20

/-- The sale credit of buy_prisoner: `if old_owner_id:` pays the
previous owner only when their id is truthy — NULL and the id 0 are
both falsy in Python, and then no credit is paid. -/
def creditOldOwner (db : DB) (oldOwner : Option Nat) (price : Nat) : DB :=
  match oldOwner with
  | some o =>
    if o ≠ 0 then
      updateUser db o (fun a => { a with balance := a.balance + (price : Int) })
    else db
  | none => db

/-- The committed writes of a successful buy_prisoner, applied to the
state left by the shield check: sets the new owner and the bumped
price, debits the buyer, credits the previous owner when their id is
truthy, appends the ownership record, and awards the buyer
price*0.0001 points. -/
def buyApply (buyerId pid now : Nat) (db1 : DB) (price : Nat) (oldOwner : Option Nat) : DB :=
  updateUser
    (appendHistory
      (creditOldOwner
        (updateUser
          (updateUser db1 pid
            (fun a => { a with ownerId := some buyerId,
                               price := bumpedPrice db1 pid now price }))
          buyerId (fun a => { a with balance := a.balance - (price : Int) }))
        oldOwner price)
      { prisonerId := pid, oldOwner := oldOwner, newOwner := some buyerId,
        pricePaid := price, timestamp := now })
    buyerId (fun a => { a with points := a.points + (price : ℚ) / 10000 })

/-- buy_prisoner: the Purchase operation. Checks existence, self-trade,
already-owned, shield (with lazy clearing), and funds; on success sets
the new owner, bumps the price by int(price*1.3) times the dynamic
surcharge (+0.1 when recent trades within 30 days are at least 3, +0.15
when the prisoner owns at least 5 others), debits the buyer, credits
the previous owner when one exists, appends a history row, and awards
the buyer price*0.0001 points. -/
def buy_prisoner (buyerId pid now : Nat) (db : DB) : EngineResult :=
  match get_user db pid with
  | none => .err .notFound db
  | some prisoner =>
    if buyerId = pid then .err .selfTrade db
    else if prisoner.ownerId = some buyerId then .err .alreadyOwned db
    else
      match check_shield_status db pid now with
      | (true, db1) => .err .shielded db1
      | (false, db1) =>
        let price := prisoner.price
        match get_user db1 buyerId with
        | none => .err .crash db1
        | some buyer =>
          if buyer.balance < (price : Int) then .err .insufficientFunds db1
          else .ok (buyApply buyerId pid now db1 price prisoner.ownerId)

/-- The committed writes of a successful buy_self_freedom: clears the
owner, debits the user by their own price (no credit recipient), and
appends an ownership record with new_owner NULL. -/
def selfFreeApply (uid now : Nat) (db : DB) (price : Nat) (oldOwner : Nat) : DB :=
  appendHistory
    (updateUser db uid
      (fun a => { a with ownerId := none, balance := a.balance - (price : Int) }))
    { prisonerId := uid, oldOwner := some oldOwner, newOwner := none,
      pricePaid := price, timestamp := now }

/-- buy_self_freedom: the SelfLiberation operation. Checks existence,
then ownedness with Python truthiness (`if not user['owner_id']:` — a
NULL owner and the owner id 0 are both "already free"), then funds,
then the shield pair against the wall clock (with no lazy clearing);
on success clears the owner, debits the user by their own price (no
credit recipient), and appends a history row with new_owner NULL. -/
def buy_self_freedom (uid now : Nat) (db : DB) : EngineResult :=
  match get_user db uid with
  | none => .err .notFound db
  | some user =>
    match user.ownerId with
    | none => .err .notOwned db
    | some oldOwner =>
      if oldOwner = 0 then .err .notOwned db
      else
      let price := user.price
      if user.balance < (price : Int) then .err .insufficientFunds db
      else
        let shieldBlocked := user.shieldActive &&
          (match user.shieldUntil with
           | some t => decide (now < t)
           | none => false)
        if shieldBlocked then .err .shielded db
        else .ok (selfFreeApply uid now db price oldOwner)

/-- The committed writes of a successful activate_shield: sets the
shield pair with expiry now + 24 hours and debits the owner by the
cost. -/
def shieldApply (ownerId pid now : Nat) (db : DB) (cost : Nat) : DB :=
  updateUser
    (updateUser db pid
      (fun a => { a with shieldActive := true, shieldUntil := some (now + 86400) }))
    ownerId (fun a => { a with balance := a.balance - (cost : Int) })

/-- activate_shield: the ShieldActivate operation. Checks ownership and
an unexpired-shield condition; cost is int(price*0.35); on success sets
the shield pair with expiry now + 24h and debits the owner. -/
def activate_shield (ownerId pid now : Nat) (db : DB) : EngineResult :=
  match get_user db pid with
  | none => .err .notOwner db
  | some prisoner =>
    if prisoner.ownerId ≠ some ownerId then .err .notOwner db
    else
      let blocked := prisoner.shieldActive &&
        (match prisoner.shieldUntil with
         | some t => decide (now < t)
         | none => false)
      if blocked then .err .alreadyShielded db
      else
        let cost := 7 * prisoner.price / 20
        match get_user db ownerId with
        | none => .err .crash db
        | some owner =>
          if owner.balance < (cost : Int) then .err .insufficientFunds db
          else .ok (shieldApply ownerId pid now db cost)

/-- get_prisoner_upgrade_info: reads the upgrade row for a prisoner,
lazily inserting the initial record (level 1, multiplier 1.0, cost 100,
invested 0) when none exists. -/
def findTrack : List (Nat × UpgradeTrack) → Nat → Option UpgradeTrack
  | [], _ => none
  | (k, t) :: rest, pid => if k = pid then some t else findTrack rest pid

def get_prisoner_upgrade_info (db : DB) (pid : Nat) : UpgradeTrack × DB :=
  match findTrack db.upgrades pid with
  | some t => (t, db)
  | none =>
    let t : UpgradeTrack := { level := 1, multiplier := 1, nextCost := 100, invested := 0 }
    (t, { db with upgrades := db.upgrades ++ [(pid, t)] })

/-- Python round(x, 2) on the income multiplier: round x*100 to the
nearest integer (half up; the trace values of the claims have no ties,
where Python would round half to even) and divide by 100. -/
def round2 (q : ℚ) : ℚ := ((⌊q * 100 + 1/2⌋ : ℤ) : ℚ) / 100

/-- UPDATE prisoner_upgrades SET ... WHERE prisoner_id = ?. -/
def setTrack (d : DB) (pid : Nat) (t : UpgradeTrack) : DB :=
  { d with upgrades := d.upgrades.map (fun q => if q.1 = pid then (pid, t) else q) }

/-- The track stored by a successful upgrade. -/
def nextTrack (info : UpgradeTrack) : UpgradeTrack :=
  { level := info.level + 1,
    multiplier := round2 (info.multiplier * 6 / 5),
    nextCost := 3 * info.nextCost / 2,
    invested := info.invested + info.nextCost }

/-- The committed writes of a successful upgrade_prisoner, applied to
the state in which the upgrade row exists: debits the owner by the
stored next cost, advances the track (level + 1, multiplier times 1.2
rounded to 2 decimals, cost times 1.5 truncated, invested + cost), and
raises the prisoner's price by int(cost*0.8). -/
def upgradeApply (ownerId pid : Nat) (db1 : DB) (info : UpgradeTrack) : DB :=
  updateUser
    (setTrack
      (updateUser db1 ownerId
        (fun a => { a with balance := a.balance - (info.nextCost : Int) }))
      pid (nextTrack info))
    pid (fun a => { a with price := a.price + 4 * info.nextCost / 5 })

/-- upgrade_prisoner: the Upgrade operation. Checks ownership, lazily
materialises the upgrade row, checks funds against the stored next
cost; on success debits the owner, advances the track (level + 1,
multiplier ×1.2 rounded to 2 decimals, cost ×1.5 truncated, invested +
cost), and raises the prisoner's price by int(cost*0.8). -/
def upgrade_prisoner (ownerId pid : Nat) (db : DB) : EngineResult :=
  match get_user db pid with
  | none => .err .notOwner db
  | some prisoner =>
    if prisoner.ownerId ≠ some ownerId then .err .notOwner db
    else
      match get_prisoner_upgrade_info db pid with
      | (info, db1) =>
        let cost := info.nextCost
        match get_user db1 ownerId with
        | none => .err .crash db1
        | some owner =>
          if owner.balance < (cost : Int) then .err .insufficientFunds db1
          else .ok (upgradeApply ownerId pid db1 info)

/-- The SELECT of collect_work_rewards: incomplete assignments of the
owner whose end time has passed, joined against the users table on the
prisoner id (a missing prisoner row drops the assignment). -/
def readyJob (db : DB) (ownerId now : Nat) (a : WorkAssignment) : Bool :=
  decide (a.ownerId = ownerId) && !a.completed && decide (a.endTime ≤ now)
    && (get_user db a.prisonerId).isSome

/-- Sum of the expected rewards of the ready selection. -/
def collectTotal (db : DB) (ownerId now : Nat) : Nat :=
  ((db.assignments.filter (readyJob db ownerId now)).map (fun a => a.expectedReward)).sum

/-- Marks every selected assignment complete. -/
def markReady (db : DB) (ownerId now : Nat) : DB :=
  { db with assignments := db.assignments.map (fun a => if readyJob db ownerId now a then { a with completed := true } else a) }

/-- The committed writes of a successful collect_work_rewards: marks
every selected assignment complete and credits the owner once with the
sum of their expected rewards. -/
def collectApply (ownerId now : Nat) (db : DB) : DB :=
  updateUser (markReady db ownerId now) ownerId
    (fun a => { a with balance := a.balance + (collectTotal db ownerId now : Int) })

/-- collect_work_rewards: fails when the ready selection is empty;
otherwise sums the expected rewards, marks each selected assignment
complete, and credits the owner once with the total. -/
def collect_work_rewards (ownerId now : Nat) (db : DB) : EngineResult :=
  let ready := db.assignments.filter (readyJob db ownerId now)
  if ready.isEmpty then .err .nothingReady db
  else
    .ok (collectApply ownerId now db)

/-- The price trend factor of GameLogic._calculate_liquidity_multiplier:
a Python if/elif chain whose first branch tests the 30-day average and
whose second tests the 30-day maximum. -/
def trend_multiplier (avgHist maxHist currentPrice : ℚ) : ℚ :=
  if 0 < avgHist ∧ avgHist < currentPrice then 11/10
  else if 0 < maxHist ∧ maxHist < currentPrice then 12/10
  else 1

/-- The five caller-initiated mutating operations of the Ownership
Transfer Protocol and ledger, as one step type. -/
inductive Op where
  | purchase (buyerId pid now : Nat)
  | selfLib (uid now : Nat)
  | shield (ownerId pid now : Nat)
  | upgrade (ownerId pid : Nat)
  | transfer (fromId toId : Nat) (amount : Int)
deriving DecidableEq

def runOp : Op → DB → EngineResult
  | .purchase b p now, db => buy_prisoner b p now db
  | .selfLib u now, db => buy_self_freedom u now db
  | .shield o p now, db => activate_shield o p now db
  | .upgrade o p, db => upgrade_prisoner o p db
  | .transfer f t amt, db => transfer_money f t amt db

/-- Sum of every account's balance. -/
def totalBalance (db : DB) : Int :=
  (db.users.map (fun p => p.2.balance)).sum

/-- The economic view of an account: balance, price, owner reference. -/
def econView (db : DB) (uid : Nat) : Option (Int × Nat × Option Nat) :=
  (get_user db uid).map (fun a => (a.balance, a.price, a.ownerId))

def balanceOf (db : DB) (uid : Nat) : Option Int :=
  (get_user db uid).map (fun a => a.balance)

def priceOf (db : DB) (uid : Nat) : Option Nat :=
  (get_user db uid).map (fun a => a.price)

def ownerOf (db : DB) (uid : Nat) : Option (Option Nat) :=
  (get_user db uid).map (fun a => a.ownerId)

/-- Every balance in the store is nonnegative. -/
def allNonneg (db : DB) : Bool :=
  db.users.all (fun p => decide (0 ≤ p.2.balance))

/-- No account is its own owner. -/
def noSelfOwner (db : DB) : Bool :=
  db.users.all (fun p => decide (p.2.ownerId ≠ some p.1))

/-! ### Basic store lemmas -/

lemma findUser_cons (k uid : Nat) (a : Account) (rest : List (Nat × Account)) :
    findUser ((k, a) :: rest) uid = if k = uid then some a else findUser rest uid := rfl

/-- Abbreviation used by the update lemmas below. -/
def updRow (k : Nat) (f : Account → Account) (p : Nat × Account) : Nat × Account :=
  if p.1 = k then (p.1, f p.2) else p

lemma updateUser_users (db : DB) (k : Nat) (f : Account → Account) :
    (updateUser db k f).users = db.users.map (updRow k f) := rfl

lemma updRow_eq (k : Nat) (f : Account → Account) (a : Account) :
    updRow k f (k, a) = (k, f a) := by
  simp [updRow]

lemma updRow_ne (k : Nat) (f : Account → Account) (p : Nat × Account) (h : ¬ p.1 = k) :
    updRow k f p = p := by
  simp [updRow, h]

lemma findUser_map_updRow (users : List (Nat × Account)) (k x : Nat) (f : Account → Account) :
    findUser (users.map (updRow k f)) x
      = if x = k then (findUser users k).map f else findUser users x := by
  induction users with
  | nil =>
    by_cases hx : x = k <;> simp [findUser, hx]
  | cons hd tl ih =>
    obtain ⟨k', a⟩ := hd
    rw [List.map_cons]
    by_cases hk : k' = k
    · subst hk
      by_cases hx : x = k'
      · subst hx
        simp [updRow_eq, findUser_cons]
      · have hx' : ¬ k' = x := fun h => hx h.symm
        simp [updRow_eq, findUser_cons, hx, hx', ih]
    · by_cases hx : k' = x
      · subst hx
        simp [updRow_ne k f (k', a) hk, findUser_cons, hk,
          fun h => hk h]
      · simp [updRow_ne k f (k', a) hk, findUser_cons, hx, hk, ih]

lemma get_user_updateUser (db : DB) (k x : Nat) (f : Account → Account) :
    get_user (updateUser db k f) x
      = if x = k then (get_user db k).map f else get_user db x := by
  unfold get_user
  rw [updateUser_users]
  exact findUser_map_updRow db.users k x f

lemma keys_map_updRow (users : List (Nat × Account)) (k : Nat) (f : Account → Account) :
    (users.map (updRow k f)).map Prod.fst = users.map Prod.fst := by
  induction users with
  | nil => rfl
  | cons hd tl ih =>
    obtain ⟨k', a⟩ := hd
    rw [List.map_cons, List.map_cons, List.map_cons, ih]
    by_cases hk : k' = k
    · subst hk
      rw [updRow_eq]
    · rw [updRow_ne k f (k', a) hk]

lemma keys_updateUser (db : DB) (k : Nat) (f : Account → Account) :
    (updateUser db k f).users.map Prod.fst = db.users.map Prod.fst := by
  rw [updateUser_users]
  exact keys_map_updRow db.users k f

lemma findUser_eq_none_of_not_mem (users : List (Nat × Account)) (k : Nat)
    (h : k ∉ users.map Prod.fst) : findUser users k = none := by
  induction users with
  | nil => rfl
  | cons hd tl ih =>
    obtain ⟨k', a⟩ := hd
    rw [List.map_cons, List.mem_cons] at h
    push_neg at h
    have hne : ¬ k' = k := fun hh => h.1 hh.symm
    rw [findUser_cons, if_neg hne]
    exact ih h.2

lemma map_updRow_eq_self (users : List (Nat × Account)) (k : Nat) (f : Account → Account)
    (h : findUser users k = none) :
    users.map (updRow k f) = users := by
  induction users with
  | nil => rfl
  | cons hd tl ih =>
    obtain ⟨k', a⟩ := hd
    rw [findUser_cons] at h
    by_cases hk : k' = k
    · rw [if_pos hk] at h
      cases h
    · rw [if_neg hk] at h
      rw [List.map_cons, updRow_ne k f (k', a) hk, ih h]

lemma mem_eq_of_findUser_nodup (users : List (Nat × Account)) (k : Nat) (a b : Account)
    (hnd : (users.map Prod.fst).Nodup) (hf : findUser users k = some a)
    (hm : (k, b) ∈ users) : b = a := by
  induction users with
  | nil => cases hm
  | cons hd tl ih =>
    obtain ⟨k', c⟩ := hd
    rw [List.map_cons, List.nodup_cons] at hnd
    rcases List.mem_cons.mp hm with hm1 | hm2
    · have hk : k' = k := (congrArg Prod.fst hm1).symm
      subst hk
      rw [findUser_cons, if_pos rfl, Option.some.injEq] at hf
      have hcb : c = b := (congrArg Prod.snd hm1).symm
      rw [← hcb, hf]
    · by_cases hk : k' = k
      · subst hk
        exact absurd (List.mem_map.mpr ⟨(k', b), hm2, rfl⟩) hnd.1
      · rw [findUser_cons, if_neg hk] at hf
        exact ih hnd.2 hf hm2

/-! ### Total-balance lemmas -/

def sumBal (users : List (Nat × Account)) : Int :=
  (users.map (fun p => p.2.balance)).sum

lemma totalBalance_eq_sumBal (db : DB) : totalBalance db = sumBal db.users := rfl

lemma sumBal_cons (p : Nat × Account) (rest : List (Nat × Account)) :
    sumBal (p :: rest) = p.2.balance + sumBal rest := by
  simp [sumBal]

lemma sumBal_map_updRow_some (users : List (Nat × Account)) (k : Nat)
    (f : Account → Account) (a : Account)
    (hnd : (users.map Prod.fst).Nodup) (ha : findUser users k = some a) :
    sumBal (users.map (updRow k f)) = sumBal users + ((f a).balance - a.balance) := by
  induction users with
  | nil => cases ha
  | cons hd tl ih =>
    obtain ⟨k', c⟩ := hd
    rw [List.map_cons, List.nodup_cons] at hnd
    rw [findUser_cons] at ha
    rw [List.map_cons]
    by_cases hk : k' = k
    · subst hk
      rw [if_pos rfl, Option.some.injEq] at ha
      subst ha
      have hnone : findUser tl k' = none :=
        findUser_eq_none_of_not_mem tl k' hnd.1
      rw [map_updRow_eq_self tl k' f hnone, updRow_eq, sumBal_cons, sumBal_cons]
      ring
    · rw [if_neg hk] at ha
      rw [updRow_ne k f (k', c) hk, sumBal_cons, sumBal_cons, ih hnd.2 ha]
      ring

lemma totalBalance_updateUser_some (db : DB) (k : Nat) (f : Account → Account) (a : Account)
    (hnd : (db.users.map Prod.fst).Nodup) (ha : get_user db k = some a) :
    totalBalance (updateUser db k f) = totalBalance db + ((f a).balance - a.balance) := by
  rw [totalBalance_eq_sumBal, totalBalance_eq_sumBal, updateUser_users]
  exact sumBal_map_updRow_some db.users k f a hnd ha

lemma totalBalance_updateUser_none (db : DB) (k : Nat) (f : Account → Account)
    (ha : get_user db k = none) :
    totalBalance (updateUser db k f) = totalBalance db := by
  rw [totalBalance_eq_sumBal, totalBalance_eq_sumBal, updateUser_users,
    map_updRow_eq_self db.users k f ha]

lemma sumBal_map_updRow_balance_eq (users : List (Nat × Account)) (k : Nat)
    (f : Account → Account) (h : ∀ a, (f a).balance = a.balance) :
    sumBal (users.map (updRow k f)) = sumBal users := by
  induction users with
  | nil => rfl
  | cons hd tl ih =>
    obtain ⟨k', c⟩ := hd
    rw [List.map_cons, sumBal_cons, sumBal_cons, ih]
    by_cases hk : k' = k
    · subst hk
      rw [updRow_eq]
      simp [h]
    · rw [updRow_ne k f (k', c) hk]

lemma totalBalance_updateUser_balance_eq (db : DB) (k : Nat) (f : Account → Account)
    (h : ∀ a, (f a).balance = a.balance) :
    totalBalance (updateUser db k f) = totalBalance db := by
  rw [totalBalance_eq_sumBal, totalBalance_eq_sumBal, updateUser_users]
  exact sumBal_map_updRow_balance_eq db.users k f h

/-! ### Nonnegativity and self-ownership lemmas -/

lemma allNonneg_iff (db : DB) :
    allNonneg db = true ↔ ∀ p ∈ db.users, 0 ≤ p.2.balance := by
  unfold allNonneg
  rw [List.all_eq_true]
  constructor
  · intro h p hp
    exact of_decide_eq_true (h p hp)
  · intro h p hp
    exact decide_eq_true (h p hp)

lemma allNonneg_updateUser_pointwise (db : DB) (k : Nat) (f : Account → Account)
    (hf : ∀ a, 0 ≤ a.balance → 0 ≤ (f a).balance)
    (hdb : allNonneg db = true) : allNonneg (updateUser db k f) = true := by
  rw [allNonneg_iff] at hdb ⊢
  rw [updateUser_users]
  intro p hp
  rcases List.mem_map.mp hp with ⟨q, hq, hpq⟩
  subst hpq
  by_cases hk : q.1 = k
  · have : updRow k f q = (q.1, f q.2) := by
      simp [updRow, hk]
    rw [this]
    exact hf q.2 (hdb q hq)
  · rw [updRow_ne k f q hk]
    exact hdb q hq

lemma allNonneg_updateUser_some (db : DB) (k : Nat) (f : Account → Account) (a : Account)
    (hnd : (db.users.map Prod.fst).Nodup) (ha : get_user db k = some a)
    (hfa : 0 ≤ (f a).balance)
    (hdb : allNonneg db = true) : allNonneg (updateUser db k f) = true := by
  rw [allNonneg_iff] at hdb ⊢
  rw [updateUser_users]
  intro p hp
  rcases List.mem_map.mp hp with ⟨q, hq, hpq⟩
  subst hpq
  by_cases hk : q.1 = k
  · have hq' : (k, q.2) ∈ db.users := by
      rw [← hk]; exact hq
    have : q.2 = a := mem_eq_of_findUser_nodup db.users k a q.2 hnd ha hq'
    have hrow : updRow k f q = (q.1, f q.2) := by
      simp [updRow, hk]
    rw [hrow]
    simpa [this] using hfa
  · rw [updRow_ne k f q hk]
    exact hdb q hq

lemma noSelfOwner_iff (db : DB) :
    noSelfOwner db = true ↔ ∀ p ∈ db.users, p.2.ownerId ≠ some p.1 := by
  unfold noSelfOwner
  rw [List.all_eq_true]
  constructor
  · intro h p hp
    exact of_decide_eq_true (h p hp)
  · intro h p hp
    exact decide_eq_true (h p hp)

lemma noSelfOwner_updateUser_owner_eq (db : DB) (k : Nat) (f : Account → Account)
    (hf : ∀ a, (f a).ownerId = a.ownerId)
    (hdb : noSelfOwner db = true) : noSelfOwner (updateUser db k f) = true := by
  rw [noSelfOwner_iff] at hdb ⊢
  rw [updateUser_users]
  intro p hp
  rcases List.mem_map.mp hp with ⟨q, hq, hpq⟩
  subst hpq
  by_cases hk : q.1 = k
  · have hrow : updRow k f q = (q.1, f q.2) := by
      simp [updRow, hk]
    rw [hrow]
    simpa [hf] using hdb q hq
  · rw [updRow_ne k f q hk]
    exact hdb q hq

lemma noSelfOwner_updateUser_owner_ne (db : DB) (k : Nat) (f : Account → Account)
    (hf : ∀ a, (f a).ownerId ≠ some k)
    (hdb : noSelfOwner db = true) : noSelfOwner (updateUser db k f) = true := by
  rw [noSelfOwner_iff] at hdb ⊢
  rw [updateUser_users]
  intro p hp
  rcases List.mem_map.mp hp with ⟨q, hq, hpq⟩
  subst hpq
  by_cases hk : q.1 = k
  · have hrow : updRow k f q = (q.1, f q.2) := by
      simp [updRow, hk]
    rw [hrow]
    simp only
    rw [hk]
    exact hf q.2
  · rw [updRow_ne k f q hk]
    exact hdb q hq

/-! ### Economic-view lemmas -/

lemma econView_updateUser_of_view_eq (db : DB) (k : Nat) (f : Account → Account)
    (hf : ∀ a, (f a).balance = a.balance ∧ (f a).price = a.price ∧ (f a).ownerId = a.ownerId)
    (x : Nat) : econView (updateUser db k f) x = econView db x := by
  unfold econView
  rw [get_user_updateUser]
  by_cases hx : x = k
  · subst hx
    rw [if_pos rfl]
    cases hu : get_user db x with
    | none => rfl
    | some a =>
      simp [Option.map, (hf a).1, (hf a).2.1, (hf a).2.2]
  · rw [if_neg hx]

/-! ### check_shield_status: the state it returns -/

lemma check_shield_status_cases (db : DB) (uid now : Nat) :
    (check_shield_status db uid now).2 = db ∨
    (check_shield_status db uid now).2
      = updateUser db uid (fun a => { a with shieldActive := false, shieldUntil := none }) := by
  unfold check_shield_status
  split
  · exact Or.inl rfl
  · split
    · split
      · exact Or.inl rfl
      · split
        · exact Or.inl rfl
        · exact Or.inr rfl
    · exact Or.inl rfl

lemma check_shield_status_econView (db : DB) (uid now x : Nat) :
    econView (check_shield_status db uid now).2 x = econView db x := by
  rcases check_shield_status_cases db uid now with h | h <;> rw [h]
  exact econView_updateUser_of_view_eq db uid
    (fun a => { a with shieldActive := false, shieldUntil := none })
    (fun a => ⟨rfl, rfl, rfl⟩) x

lemma check_shield_status_totalBalance (db : DB) (uid now : Nat) :
    totalBalance (check_shield_status db uid now).2 = totalBalance db := by
  rcases check_shield_status_cases db uid now with h | h <;> rw [h]
  exact totalBalance_updateUser_balance_eq db uid _ (fun a => rfl)

lemma check_shield_status_keys (db : DB) (uid now : Nat) :
    (check_shield_status db uid now).2.users.map Prod.fst = db.users.map Prod.fst := by
  rcases check_shield_status_cases db uid now with h | h <;> rw [h]
  exact keys_updateUser db uid _

lemma check_shield_status_upgrades (db : DB) (uid now : Nat) :
    (check_shield_status db uid now).2.upgrades = db.upgrades := by
  rcases check_shield_status_cases db uid now with h | h
  · rw [h]
  · rw [h]
    rfl

lemma check_shield_status_history (db : DB) (uid now : Nat) :
    (check_shield_status db uid now).2.history = db.history := by
  rcases check_shield_status_cases db uid now with h | h
  · rw [h]
  · rw [h]
    rfl

lemma check_shield_status_assignments (db : DB) (uid now : Nat) :
    (check_shield_status db uid now).2.assignments = db.assignments := by
  rcases check_shield_status_cases db uid now with h | h
  · rw [h]
  · rw [h]
    rfl

lemma check_shield_status_allNonneg (db : DB) (uid now : Nat)
    (hdb : allNonneg db = true) : allNonneg (check_shield_status db uid now).2 = true := by
  rcases check_shield_status_cases db uid now with h | h <;> rw [h]
  · exact hdb
  · exact allNonneg_updateUser_pointwise db uid _ (fun a ha => ha) hdb

lemma check_shield_status_noSelfOwner (db : DB) (uid now : Nat)
    (hdb : noSelfOwner db = true) : noSelfOwner (check_shield_status db uid now).2 = true := by
  rcases check_shield_status_cases db uid now with h | h <;> rw [h]
  · exact hdb
  · exact noSelfOwner_updateUser_owner_eq db uid _ (fun a => rfl) hdb

/-! ### Inversion lemmas for the operations -/

lemma transfer_money_ok_inv (fromId toId : Nat) (amount : Int) (db db' : DB)
    (h : transfer_money fromId toId amount db = .ok db') :
    ∃ sender, get_user db fromId = some sender ∧ ¬ sender.balance < amount ∧
      db' = updateUser (updateUser db fromId (fun a => { a with balance := a.balance - amount }))
              toId (fun a => { a with balance := a.balance + amount }) := by
  unfold transfer_money at h
  cases hf : get_user db fromId with
  | none => rw [hf] at h; cases h
  | some sender =>
    simp only [hf] at h
    by_cases hb : sender.balance < amount
    · simp only [if_pos hb] at h
      cases h
    · simp only [if_neg hb] at h
      cases h
      exact ⟨sender, rfl, hb, rfl⟩

lemma buy_prisoner_ok_inv (b p now : Nat) (db db' : DB)
    (h : buy_prisoner b p now db = .ok db') :
    ∃ prisoner, get_user db p = some prisoner ∧ ¬ b = p ∧ ¬ prisoner.ownerId = some b ∧
      (check_shield_status db p now).1 = false ∧
      ∃ buyer, get_user (check_shield_status db p now).2 b = some buyer ∧
        ¬ buyer.balance < (prisoner.price : Int) ∧
        db' = buyApply b p now (check_shield_status db p now).2 prisoner.price prisoner.ownerId := by
  unfold buy_prisoner at h
  cases hp : get_user db p with
  | none => rw [hp] at h; cases h
  | some prisoner =>
    simp only [hp] at h
    by_cases hbp : b = p
    · simp only [if_pos hbp] at h
      cases h
    · simp only [if_neg hbp] at h
      by_cases hown : prisoner.ownerId = some b
      · simp only [if_pos hown] at h
        cases h
      · simp only [if_neg hown] at h
        cases hcs : check_shield_status db p now with
        | mk flag db1 =>
          simp only [hcs] at h
          cases flag with
          | true => cases h
          | false =>
            simp only at h
            cases hbuyer : get_user db1 b with
            | none =>
              simp only [hbuyer] at h
              cases h
            | some buyer =>
              simp only [hbuyer] at h
              by_cases hbal : buyer.balance < (prisoner.price : Int)
              · simp only [if_pos hbal] at h
                cases h
              · simp only [if_neg hbal] at h
                cases h
                exact ⟨prisoner, rfl, hbp, hown, rfl, buyer, rfl, hbal, rfl⟩

lemma buy_self_freedom_ok_inv (uid now : Nat) (db db' : DB)
    (h : buy_self_freedom uid now db = .ok db') :
    ∃ user oldOwner, get_user db uid = some user ∧ user.ownerId = some oldOwner ∧
      ¬ user.balance < (user.price : Int) ∧
      db' = selfFreeApply uid now db user.price oldOwner := by
  unfold buy_self_freedom at h
  cases hu : get_user db uid with
  | none => rw [hu] at h; cases h
  | some user =>
    simp only [hu] at h
    cases hown : user.ownerId with
    | none =>
      simp only [hown] at h
      cases h
    | some oldOwner =>
      simp only [hown] at h
      by_cases h0 : oldOwner = 0
      · simp only [if_pos h0] at h
        cases h
      · simp only [if_neg h0] at h
        by_cases hbal : user.balance < (user.price : Int)
        · simp only [if_pos hbal] at h
          cases h
        · simp only [if_neg hbal] at h
          by_cases hsb : (user.shieldActive &&
              (match user.shieldUntil with
               | some t => decide (now < t)
               | none => false)) = true
          · simp only [hsb, if_true] at h
            cases h
          · simp only [hsb, if_false, Bool.false_eq_true] at h
            cases h
            exact ⟨user, oldOwner, rfl, hown, hbal, rfl⟩

lemma activate_shield_ok_inv (ownerId pid now : Nat) (db db' : DB)
    (h : activate_shield ownerId pid now db = .ok db') :
    ∃ prisoner owner, get_user db pid = some prisoner ∧ prisoner.ownerId = some ownerId ∧
      get_user db ownerId = some owner ∧
      ¬ owner.balance < ((7 * prisoner.price / 20 : Nat) : Int) ∧
      db' = shieldApply ownerId pid now db (7 * prisoner.price / 20) := by
  unfold activate_shield at h
  cases hp : get_user db pid with
  | none => rw [hp] at h; cases h
  | some prisoner =>
    simp only [hp] at h
    by_cases hown : prisoner.ownerId = some ownerId
    · simp only [if_neg (not_not.mpr hown)] at h
      by_cases hsb : (prisoner.shieldActive &&
          (match prisoner.shieldUntil with
           | some t => decide (now < t)
           | none => false)) = true
      · simp only [hsb, if_true] at h
        cases h
      · simp only [hsb, if_false, Bool.false_eq_true] at h
        cases howner : get_user db ownerId with
        | none =>
          simp only [howner] at h
          cases h
        | some owner =>
          simp only [howner] at h
          by_cases hbal : owner.balance < ((7 * prisoner.price / 20 : Nat) : Int)
          · simp only [if_pos hbal] at h
            cases h
          · simp only [if_neg hbal] at h
            cases h
            exact ⟨prisoner, owner, rfl, hown, rfl, hbal, rfl⟩
    · simp only [if_pos hown] at h
      cases h

lemma upgrade_prisoner_ok_inv (ownerId pid : Nat) (db db' : DB)
    (h : upgrade_prisoner ownerId pid db = .ok db') :
    ∃ prisoner owner, get_user db pid = some prisoner ∧ prisoner.ownerId = some ownerId ∧
      get_user (get_prisoner_upgrade_info db pid).2 ownerId = some owner ∧
      ¬ owner.balance < (((get_prisoner_upgrade_info db pid).1.nextCost : Nat) : Int) ∧
      db' = upgradeApply ownerId pid (get_prisoner_upgrade_info db pid).2
              (get_prisoner_upgrade_info db pid).1 := by
  unfold upgrade_prisoner at h
  cases hp : get_user db pid with
  | none => rw [hp] at h; cases h
  | some prisoner =>
    simp only [hp] at h
    by_cases hown : prisoner.ownerId = some ownerId
    · simp only [if_neg (not_not.mpr hown)] at h
      cases hinfo : get_prisoner_upgrade_info db pid with
      | mk info db1 =>
        simp only [hinfo] at h
        cases howner : get_user db1 ownerId with
        | none =>
          simp only [howner] at h
          cases h
        | some owner =>
          simp only [howner] at h
          by_cases hbal : owner.balance < ((info.nextCost : Nat) : Int)
          · simp only [if_pos hbal] at h
            cases h
          · simp only [if_neg hbal] at h
            cases h
            exact ⟨prisoner, owner, rfl, hown, rfl, hbal, rfl⟩
    · simp only [if_pos hown] at h
      cases h

lemma collect_work_rewards_ok_inv (ownerId now : Nat) (db db' : DB)
    (h : collect_work_rewards ownerId now db = .ok db') :
    (db.assignments.filter (readyJob db ownerId now)).isEmpty = false ∧
      db' = collectApply ownerId now db := by
  unfold collect_work_rewards at h
  by_cases he : (db.assignments.filter (readyJob db ownerId now)).isEmpty = true
  · simp only [if_pos he] at h
    cases h
  · simp only [if_neg he] at h
    cases h
    exact ⟨Bool.not_eq_true _ ▸ he, rfl⟩

lemma collect_work_rewards_empty (ownerId now : Nat) (db : DB)
    (h : (db.assignments.filter (readyJob db ownerId now)).isEmpty = true) :
    collect_work_rewards ownerId now db = .err .nothingReady db := by
  unfold collect_work_rewards
  simp only [if_pos h]

/-! ### Error paths: the state an operation returns on failure -/

lemma transfer_money_err_inv (fromId toId : Nat) (amount : Int) (db db' : DB) (e : EngineError)
    (h : transfer_money fromId toId amount db = .err e db') : db' = db := by
  unfold transfer_money at h
  cases hf : get_user db fromId with
  | none =>
    rw [hf] at h
    cases h
    rfl
  | some sender =>
    simp only [hf] at h
    by_cases hb : sender.balance < amount
    · simp only [if_pos hb] at h
      cases h
      rfl
    · simp only [if_neg hb] at h
      cases h

lemma buy_prisoner_err_inv (b p now : Nat) (db db' : DB) (e : EngineError)
    (h : buy_prisoner b p now db = .err e db') :
    db' = db ∨ db' = (check_shield_status db p now).2 := by
  unfold buy_prisoner at h
  cases hp : get_user db p with
  | none =>
    rw [hp] at h
    cases h
    exact Or.inl rfl
  | some prisoner =>
    simp only [hp] at h
    by_cases hbp : b = p
    · simp only [if_pos hbp] at h
      cases h
      exact Or.inl rfl
    · simp only [if_neg hbp] at h
      by_cases hown : prisoner.ownerId = some b
      · simp only [if_pos hown] at h
        cases h
        exact Or.inl rfl
      · simp only [if_neg hown] at h
        cases hcs : check_shield_status db p now with
        | mk flag db1 =>
          simp only [hcs] at h
          cases flag with
          | true =>
            cases h
            exact Or.inr rfl
          | false =>
            simp only at h
            cases hbuyer : get_user db1 b with
            | none =>
              simp only [hbuyer] at h
              cases h
              exact Or.inr rfl
            | some buyer =>
              simp only [hbuyer] at h
              by_cases hbal : buyer.balance < (prisoner.price : Int)
              · simp only [if_pos hbal] at h
                cases h
                exact Or.inr rfl
              · simp only [if_neg hbal] at h
                cases h

lemma buy_self_freedom_err_inv (uid now : Nat) (db db' : DB) (e : EngineError)
    (h : buy_self_freedom uid now db = .err e db') : db' = db := by
  unfold buy_self_freedom at h
  cases hu : get_user db uid with
  | none =>
    rw [hu] at h
    cases h
    rfl
  | some user =>
    simp only [hu] at h
    cases hown : user.ownerId with
    | none =>
      simp only [hown] at h
      cases h
      rfl
    | some oldOwner =>
      simp only [hown] at h
      by_cases h0 : oldOwner = 0
      · simp only [if_pos h0] at h
        cases h
        rfl
      · simp only [if_neg h0] at h
        by_cases hbal : user.balance < (user.price : Int)
        · simp only [if_pos hbal] at h
          cases h
          rfl
        · simp only [if_neg hbal] at h
          by_cases hsb : (user.shieldActive &&
              (match user.shieldUntil with
               | some t => decide (now < t)
               | none => false)) = true
          · simp only [hsb, if_true] at h
            cases h
            rfl
          · simp only [hsb, if_false, Bool.false_eq_true] at h
            cases h

lemma activate_shield_err_inv (ownerId pid now : Nat) (db db' : DB) (e : EngineError)
    (h : activate_shield ownerId pid now db = .err e db') : db' = db := by
  unfold activate_shield at h
  cases hp : get_user db pid with
  | none =>
    rw [hp] at h
    cases h
    rfl
  | some prisoner =>
    simp only [hp] at h
    by_cases hown : prisoner.ownerId = some ownerId
    · simp only [if_neg (not_not.mpr hown)] at h
      by_cases hsb : (prisoner.shieldActive &&
          (match prisoner.shieldUntil with
           | some t => decide (now < t)
           | none => false)) = true
      · simp only [hsb, if_true] at h
        cases h
        rfl
      · simp only [hsb, if_false, Bool.false_eq_true] at h
        cases howner : get_user db ownerId with
        | none =>
          simp only [howner] at h
          cases h
          rfl
        | some owner =>
          simp only [howner] at h
          by_cases hbal : owner.balance < ((7 * prisoner.price / 20 : Nat) : Int)
          · simp only [if_pos hbal] at h
            cases h
            rfl
          · simp only [if_neg hbal] at h
            cases h
    · simp only [if_pos hown] at h
      cases h
      rfl

lemma upgrade_prisoner_err_inv (ownerId pid : Nat) (db db' : DB) (e : EngineError)
    (h : upgrade_prisoner ownerId pid db = .err e db') :
    db' = db ∨ db' = (get_prisoner_upgrade_info db pid).2 := by
  unfold upgrade_prisoner at h
  cases hp : get_user db pid with
  | none =>
    rw [hp] at h
    cases h
    exact Or.inl rfl
  | some prisoner =>
    simp only [hp] at h
    by_cases hown : prisoner.ownerId = some ownerId
    · simp only [if_neg (not_not.mpr hown)] at h
      cases hinfo : get_prisoner_upgrade_info db pid with
      | mk info db1 =>
        simp only [hinfo] at h
        cases howner : get_user db1 ownerId with
        | none =>
          simp only [howner] at h
          cases h
          exact Or.inr rfl
        | some owner =>
          simp only [howner] at h
          by_cases hbal : owner.balance < ((info.nextCost : Nat) : Int)
          · simp only [if_pos hbal] at h
            cases h
            exact Or.inr rfl
          · simp only [if_neg hbal] at h
            cases h
    · simp only [if_pos hown] at h
      cases h
      exact Or.inl rfl

lemma collect_work_rewards_err_inv (ownerId now : Nat) (db db' : DB) (e : EngineError)
    (h : collect_work_rewards ownerId now db = .err e db') : db' = db := by
  unfold collect_work_rewards at h
  by_cases he : (db.assignments.filter (readyJob db ownerId now)).isEmpty = true
  · simp only [if_pos he] at h
    cases h
    rfl
  · simp only [if_neg he] at h
    cases h

lemma get_prisoner_upgrade_info_users (db : DB) (pid : Nat) :
    (get_prisoner_upgrade_info db pid).2.users = db.users := by
  unfold get_prisoner_upgrade_info
  cases findTrack db.upgrades pid <;> rfl

lemma get_prisoner_upgrade_info_econView (db : DB) (pid x : Nat) :
    econView (get_prisoner_upgrade_info db pid).2 x = econView db x := by
  unfold econView get_user
  rw [get_prisoner_upgrade_info_users]

/-! ### Price-view lemmas -/

lemma priceOf_updateUser_price_eq (db : DB) (k : Nat) (f : Account → Account)
    (hf : ∀ a, (f a).price = a.price) (x : Nat) :
    priceOf (updateUser db k f) x = priceOf db x := by
  unfold priceOf
  rw [get_user_updateUser]
  by_cases hx : x = k
  · subst hx
    rw [if_pos rfl]
    cases hu : get_user db x with
    | none => rfl
    | some a => simp [Option.map, hf]
  · rw [if_neg hx]

lemma priceOf_updateUser_ne (db : DB) (k x : Nat) (f : Account → Account) (hx : ¬ x = k) :
    priceOf (updateUser db k f) x = priceOf db x := by
  unfold priceOf
  rw [get_user_updateUser, if_neg hx]

/-! ### Concrete states used by witnesses and counterexamples -/

/-- A fresh, unowned, unshielded account. -/
def freeAcct (bal : Int) (price : Nat) : Account :=
  { balance := bal, price := price, ownerId := none, points := 0,
    shieldActive := false, shieldUntil := none }

/-- An owned, unshielded account. -/
def ownedAcct (bal : Int) (price : Nat) (owner : Nat) : Account :=
  { balance := bal, price := price, ownerId := some owner, points := 0,
    shieldActive := false, shieldUntil := none }

def mkDB (users : List (Nat × Account)) : DB :=
  { users := users, upgrades := [], history := [], assignments := [] }

/-! ## Claim C10 -/

/-- C10: failure atomicity. Whenever Purchase, SelfLiberation,
ShieldActivate, Upgrade, or Transfer returns an error, every account's
balance, price, and owner reference in the returned state is exactly
what it was before the call (failure paths at most clear an expired
shield pair or lazily create an upgrade row, never touching those three
fields). -/
theorem c10_failure_atomicity (op : Op) (db db' : DB) (e : EngineError)
    (h : runOp op db = .err e db') :
    ∀ x, econView db' x = econView db x := by
  intro x
  cases op with
  | purchase b p now =>
    rcases buy_prisoner_err_inv b p now db db' e h with h1 | h1
    · rw [h1]
    · rw [h1]
      exact check_shield_status_econView db p now x
  | selfLib u now =>
    rw [buy_self_freedom_err_inv u now db db' e h]
  | shield o p now =>
    rw [activate_shield_err_inv o p now db db' e h]
  | upgrade o p =>
    rcases upgrade_prisoner_err_inv o p db db' e h with h1 | h1
    · rw [h1]
    · rw [h1]
      exact get_prisoner_upgrade_info_econView db p x
  | transfer f t amt =>
    rw [transfer_money_err_inv f t amt db db' e h]

def dbC10 : DB := mkDB [(1, freeAcct 5 100), (2, freeAcct 0 100)]

/-- Witness for C10: a concrete failing Transfer (insufficient funds)
leaves the economic view of account 1 unchanged. -/
theorem c10_failure_atomicity_witness :
    econView ((runOp (Op.transfer 1 2 10) dbC10).db) 1 = econView dbC10 1 := by
  have h : runOp (Op.transfer 1 2 10) dbC10
      = .err .insufficientFunds ((runOp (Op.transfer 1 2 10) dbC10).db) := by decide
  exact c10_failure_atomicity (Op.transfer 1 2 10) dbC10 _ _ h 1

/-! ## Claim C2 -/

lemma priceOf_eq_of_users_eq (d1 d2 : DB) (h : d1.users = d2.users) (x : Nat) :
    priceOf d1 x = priceOf d2 x := by
  unfold priceOf get_user
  rw [h]

lemma priceOf_appendHistory (d : DB) (r : OwnRecord) (x : Nat) :
    priceOf (appendHistory d r) x = priceOf d x := rfl

lemma priceOf_creditOldOwner (db : DB) (oldOwner : Option Nat) (price x : Nat) :
    priceOf (creditOldOwner db oldOwner price) x = priceOf db x := by
  cases oldOwner with
  | none => rfl
  | some o =>
    show priceOf (if o ≠ 0 then updateUser db o
      (fun a => { a with balance := a.balance + (price : Int) }) else db) x = priceOf db x
    by_cases h0 : o ≠ 0
    · rw [if_pos h0]
      exact priceOf_updateUser_price_eq db o
        (fun a => { a with balance := a.balance + (price : Int) }) (fun a => rfl) x
    · rw [if_neg h0]

lemma priceOf_buyApply (b p now : Nat) (db1 : DB) (price : Nat) (oldOwner : Option Nat)
    (hbp : ¬ b = p) (pr1 : Account) (h1 : get_user db1 p = some pr1) :
    priceOf (buyApply b p now db1 price oldOwner) p = some (bumpedPrice db1 p now price) := by
  unfold buyApply
  rw [priceOf_updateUser_price_eq _ b
    (fun a => { a with points := a.points + (price : ℚ) / 10000 }) (fun a => rfl) p,
    priceOf_appendHistory, priceOf_creditOldOwner,
    priceOf_updateUser_ne _ b p _ (fun hh => hbp hh.symm)]
  unfold priceOf
  rw [get_user_updateUser, if_pos rfl, h1]
  rfl

lemma bumpedPrice_ge (db1 : DB) (pid now price : Nat) :
    13 * price / 10 ≤ bumpedPrice db1 pid now price := by
  unfold bumpedPrice
  have h20 : (20 : Nat) ≤ 20 + (if 3 ≤ recentTradeCount db1 pid now then 2 else 0)
      + (if 5 ≤ ownedCount db1 pid then 3 else 0) := by
    omega
  calc 13 * price / 10
      = 13 * price / 10 * 20 / 20 := by
        rw [Nat.mul_div_cancel _ (by norm_num)]
    _ ≤ _ := Nat.div_le_div_right (Nat.mul_le_mul_left _ h20)

/-- C2 (amended): after every successful Purchase, for every starting
price and every value of the dynamic surcharge factors, the asset's new
stored price is at least the truncated bump 13*old/10 (the source
computes int(price * 1.3), which truncates, so the exact real bound
old*1.3 can fail by a fraction; see the counterexample). -/
theorem c2_price_bump (b p now : Nat) (db db' : DB)
    (h : buy_prisoner b p now db = .ok db') :
    ∀ prisoner, get_user db p = some prisoner →
      ∃ newP, priceOf db' p = some newP ∧ 13 * prisoner.price / 10 ≤ newP := by
  rcases buy_prisoner_ok_inv b p now db db' h with
    ⟨pr0, hp0, hbp, hown, hflag, buyer, hbuyer, hbal, hdb'⟩
  intro prisoner hp
  rw [hp0] at hp
  injection hp with hpe
  subst hpe
  subst hdb'
  have hev := check_shield_status_econView db p now p
  unfold econView at hev
  rw [hp0] at hev
  cases h1 : get_user (check_shield_status db p now).2 p with
  | none =>
    rw [h1] at hev
    cases hev
  | some pr1 =>
    refine ⟨bumpedPrice (check_shield_status db p now).2 p now pr0.price, ?_, ?_⟩
    · exact priceOf_buyApply b p now _ pr0.price pr0.ownerId hbp pr1 h1
    · exact bumpedPrice_ge _ p now pr0.price

def dbC2 : DB := mkDB [(1, freeAcct 200 100), (2, freeAcct 300 101)]

/-- Counterexample for C2 as stated: buying the unowned asset 2 at
price 101 succeeds and stores price 131, but 131 < 101 * 1.3 = 131.3 —
the exact multiplicative bound fails because the source truncates. -/
theorem c2_counterexample :
    (buy_prisoner 1 2 0 dbC2).isOk = true ∧
    priceOf (buy_prisoner 1 2 0 dbC2).db 2 = some 131 ∧
    ((131 : ℚ) < (13 / 10) * 101) := by
  refine ⟨by decide, by decide, by norm_num⟩

/-- Witness for C2: the amended bound holds on the concrete purchase of
asset 2 at price 101. -/
theorem c2_price_bump_witness :
    ∃ newP, priceOf ((buy_prisoner 1 2 0 dbC2).db) 2 = some newP ∧
      13 * (freeAcct 300 101).price / 10 ≤ newP := by
  have h : buy_prisoner 1 2 0 dbC2 = .ok ((buy_prisoner 1 2 0 dbC2).db) := rfl
  exact c2_price_bump 1 2 0 dbC2 _ h (freeAcct 300 101) (by decide)

/-! ## Claim C6 -/

/-- C6 (amended): in the liquidity trend factor the first matching
branch wins, because the source tests the 30-day average first in an
if/elif chain: whenever the current price exceeds a positive 30-day
average sale price, the factor is 1.1 — even when the price also
exceeds the 30-day maximum; the 1.2 max-price branch applies only when
the average check fails. -/
theorem c6_trend_first_branch (avgHist maxHist currentPrice : ℚ)
    (hpos : 0 < avgHist) (hgt : avgHist < currentPrice) :
    trend_multiplier avgHist maxHist currentPrice = 11 / 10 := by
  unfold trend_multiplier
  rw [if_pos ⟨hpos, hgt⟩]

/-- Counterexample for C6 as stated: with 30-day average 100, maximum
100 and current price 200, the price exceeds both thresholds, yet the
factor is 1.1 (the average branch, checked first) and not 1.2. -/
theorem c6_counterexample :
    (0 : ℚ) < 100 ∧ (100 : ℚ) < 200 ∧
    trend_multiplier 100 100 200 = 11 / 10 ∧ trend_multiplier 100 100 200 ≠ 12 / 10 := by
  refine ⟨by norm_num, by norm_num, ?_, ?_⟩
  · unfold trend_multiplier
    norm_num
  · unfold trend_multiplier
    norm_num

/-- Witness for C6: the amended statement evaluated at the concrete
both-thresholds-exceeded input. -/
theorem c6_trend_first_branch_witness :
    trend_multiplier 50 40 60 = 11 / 10 :=
  c6_trend_first_branch 50 40 60 (by norm_num) (by norm_num)

/-! ## Claim C5 -/

lemma balanceOf_updateUser (db : DB) (k x : Nat) (f : Account → Account) :
    balanceOf (updateUser db k f) x
      = if x = k then (get_user db k).map (fun a => (f a).balance) else balanceOf db x := by
  unfold balanceOf
  rw [get_user_updateUser]
  by_cases hx : x = k
  · rw [if_pos hx, if_pos hx, Option.map_map]
    rfl
  · rw [if_neg hx, if_neg hx]

/-- C5 (amended): transfer_money performs no positivity check on the
amount — the rejection of non-positive amounts lives only in the
excluded presentation layer. Any amount not exceeding the sender's
balance (zero and negative amounts included) makes the operation
succeed, debiting the sender and crediting the receiver by the amount
verbatim; no InvalidAmount error exists in the engine. -/
theorem c5_no_amount_check (fromId toId : Nat) (amount : Int) (db : DB)
    (sender : Account) (hf : get_user db fromId = some sender)
    (hle : amount ≤ sender.balance) (hne : ¬ toId = fromId) :
    ∃ db', transfer_money fromId toId amount db = .ok db' ∧
      balanceOf db' fromId = some (sender.balance - amount) ∧
      ∀ receiver, get_user db toId = some receiver →
        balanceOf db' toId = some (receiver.balance + amount) := by
  refine ⟨updateUser (updateUser db fromId
      (fun a => { a with balance := a.balance - amount })) toId
      (fun a => { a with balance := a.balance + amount }), ?_, ?_, ?_⟩
  · unfold transfer_money
    simp only [hf]
    rw [if_neg (not_lt.mpr hle)]
  · rw [balanceOf_updateUser,
      if_neg (fun hh : fromId = toId => hne hh.symm),
      balanceOf_updateUser, if_pos rfl, hf]
    rfl
  · intro receiver hr
    rw [balanceOf_updateUser, if_pos rfl, get_user_updateUser,
      if_neg hne, hr]
    rfl

def dbC5 : DB := mkDB [(1, freeAcct 300 100), (2, freeAcct 300 100)]

/-- Counterexample for C5 as stated: a Transfer of amount 0 does not
fail with any error — it returns success (and changes no balance), so
the InvalidAmount rejection does not exist in this operation. -/
theorem c5_counterexample :
    (transfer_money 1 2 0 dbC5).isOk = true ∧
    (transfer_money 1 2 0 dbC5).errCode = none ∧
    balanceOf (transfer_money 1 2 0 dbC5).db 1 = some 300 ∧
    balanceOf (transfer_money 1 2 0 dbC5).db 2 = some 300 := by
  refine ⟨by decide, by decide, by decide, by decide⟩

/-- Witness for C5: a concrete negative-amount transfer succeeds and
moves money from the receiver to the sender. -/
theorem c5_no_amount_check_witness :
    ∃ db', transfer_money 1 2 (-5) dbC5 = .ok db' ∧
      balanceOf db' 1 = some ((freeAcct 300 100).balance - (-5)) ∧
      ∀ receiver, get_user dbC5 2 = some receiver →
        balanceOf db' 2 = some (receiver.balance + (-5)) :=
  c5_no_amount_check 1 2 (-5) dbC5 (freeAcct 300 100) (by decide) (by decide) (by decide)

/-! ## Claim C3 -/

lemma noSelfOwner_appendHistory (d : DB) (r : OwnRecord) :
    noSelfOwner (appendHistory d r) = noSelfOwner d := rfl

lemma noSelfOwner_setTrack (d : DB) (pid : Nat) (t : UpgradeTrack) :
    noSelfOwner (setTrack d pid t) = noSelfOwner d := rfl

lemma noSelfOwner_creditOldOwner (db : DB) (oldOwner : Option Nat) (price : Nat)
    (hdb : noSelfOwner db = true) :
    noSelfOwner (creditOldOwner db oldOwner price) = true := by
  cases oldOwner with
  | none => exact hdb
  | some o =>
    show noSelfOwner (if o ≠ 0 then updateUser db o
      (fun a => { a with balance := a.balance + (price : Int) }) else db) = true
    by_cases h0 : o ≠ 0
    · rw [if_pos h0]
      exact noSelfOwner_updateUser_owner_eq db o
        (fun a => { a with balance := a.balance + (price : Int) }) (fun a => rfl) hdb
    · rw [if_neg h0]
      exact hdb

lemma noSelfOwner_buyApply (b p now : Nat) (db1 : DB) (price : Nat) (oldOwner : Option Nat)
    (hbp : ¬ b = p) (hdb1 : noSelfOwner db1 = true) :
    noSelfOwner (buyApply b p now db1 price oldOwner) = true := by
  unfold buyApply
  apply noSelfOwner_updateUser_owner_eq _ b
    (fun a => { a with points := a.points + (price : ℚ) / 10000 }) (fun a => rfl)
  rw [noSelfOwner_appendHistory]
  apply noSelfOwner_creditOldOwner
  apply noSelfOwner_updateUser_owner_eq _ b
    (fun a => { a with balance := a.balance - (price : Int) }) (fun a => rfl)
  apply noSelfOwner_updateUser_owner_ne _ p
    (fun a => { a with ownerId := some b, price := bumpedPrice db1 p now price })
    (fun a h => hbp (Option.some_injective _ h))
  exact hdb1

lemma noSelfOwner_insertNew (db : DB) (uid : Nat) (hdb : noSelfOwner db = true) :
    noSelfOwner (insertNew db uid) = true := by
  rw [noSelfOwner_iff] at hdb ⊢
  intro q hq
  rcases List.mem_append.mp hq with hq1 | hq2
  · exact hdb q hq1
  · rcases List.mem_singleton.mp hq2 with rfl
    intro hc
    cases hc

/-- C3 (amended): Purchase and SelfLiberation (along with
ShieldActivate, Upgrade, and Transfer) preserve the no-self-ownership
invariant — a Purchase writes the buyer as owner only after the
self-trade check, and SelfLiberation writes NULL — but account
creation applies no self-exclusion check: create_user with a truthy
referrer equal to the created id sets the account's owner reference to
itself, so creation preserves the invariant only when the referrer is
absent, falsy (0), or different from the created id. -/
theorem c3_no_self_owner :
    (∀ (op : Op) (db : DB), noSelfOwner db = true →
        noSelfOwner ((runOp op db).db) = true)
    ∧ (∀ (uid : Nat) (ref : Option Nat) (now : Nat) (db : DB),
        noSelfOwner db = true → (∀ r, ref = some r → r = 0 ∨ ¬ r = uid) →
        noSelfOwner (create_user uid ref now db).2 = true) := by
  constructor
  · intro op db hdb
    cases hres : runOp op db with
    | err e db' =>
      cases op with
      | purchase b p now =>
        rcases buy_prisoner_err_inv b p now db db' e hres with h1 | h1
        · rw [EngineResult.db, h1]
          exact hdb
        · rw [EngineResult.db, h1]
          exact check_shield_status_noSelfOwner db p now hdb
      | selfLib u now =>
        rw [EngineResult.db, buy_self_freedom_err_inv u now db db' e hres]
        exact hdb
      | shield o p now =>
        rw [EngineResult.db, activate_shield_err_inv o p now db db' e hres]
        exact hdb
      | upgrade o p =>
        rcases upgrade_prisoner_err_inv o p db db' e hres with h1 | h1
        · rw [EngineResult.db, h1]
          exact hdb
        · rw [EngineResult.db, h1]
          unfold get_prisoner_upgrade_info
          cases findTrack db.upgrades p with
          | none => exact hdb
          | some t => exact hdb
      | transfer f t amt =>
        rw [EngineResult.db, transfer_money_err_inv f t amt db db' e hres]
        exact hdb
    | ok db' =>
      rw [EngineResult.db]
      cases op with
      | purchase b p now =>
        rcases buy_prisoner_ok_inv b p now db db' hres with
          ⟨pr0, hp0, hbp, hown, hflag, buyer, hbuyer, hbal, hdb'⟩
        rw [hdb']
        exact noSelfOwner_buyApply b p now _ pr0.price pr0.ownerId hbp
          (check_shield_status_noSelfOwner db p now hdb)
      | selfLib u now =>
        rcases buy_self_freedom_ok_inv u now db db' hres with
          ⟨user, oldOwner, hu, hown, hbal, hdb'⟩
        rw [hdb']
        unfold selfFreeApply
        rw [noSelfOwner_appendHistory]
        apply noSelfOwner_updateUser_owner_ne _ u
          (fun a => { a with ownerId := none, balance := a.balance - (user.price : Int) })
          (fun a h => Option.noConfusion h)
        exact hdb
      | shield o p now =>
        rcases activate_shield_ok_inv o p now db db' hres with
          ⟨pr, owner, hp, hown, howner, hbal, hdb'⟩
        rw [hdb']
        unfold shieldApply
        apply noSelfOwner_updateUser_owner_eq _ o
          (fun a => { a with balance := a.balance - ((7 * pr.price / 20 : Nat) : Int) })
          (fun a => rfl)
        apply noSelfOwner_updateUser_owner_eq _ p
          (fun a => { a with shieldActive := true, shieldUntil := some (now + 86400) })
          (fun a => rfl)
        exact hdb
      | upgrade o p =>
        rcases upgrade_prisoner_ok_inv o p db db' hres with
          ⟨pr, owner, hp, hown, howner, hbal, hdb'⟩
        rw [hdb']
        unfold upgradeApply
        apply noSelfOwner_updateUser_owner_eq _ p
          (fun a => { a with price := a.price + 4 * (get_prisoner_upgrade_info db p).1.nextCost / 5 })
          (fun a => rfl)
        rw [noSelfOwner_setTrack]
        apply noSelfOwner_updateUser_owner_eq _ o
          (fun a => { a with balance := a.balance - ((get_prisoner_upgrade_info db p).1.nextCost : Int) })
          (fun a => rfl)
        unfold get_prisoner_upgrade_info
        cases findTrack db.upgrades p with
        | none => exact hdb
        | some t => exact hdb
      | transfer f t amt =>
        rcases transfer_money_ok_inv f t amt db db' hres with
          ⟨sender, hf, hb, hdb'⟩
        rw [hdb']
        apply noSelfOwner_updateUser_owner_eq _ t
          (fun a => { a with balance := a.balance + amt }) (fun a => rfl)
        apply noSelfOwner_updateUser_owner_eq _ f
          (fun a => { a with balance := a.balance - amt }) (fun a => rfl)
        exact hdb
  · intro uid ref now db hdb href
    unfold create_user
    by_cases hex : (get_user db uid).isSome
    · rw [if_pos hex]
      exact hdb
    · rw [if_neg hex]
      cases ref with
      | none => exact noSelfOwner_insertNew db uid hdb
      | some r =>
        show noSelfOwner ((if r ≠ 0 then
            (true, appendHistory
              (updateUser (insertNew db uid) uid (fun a => { a with ownerId := some r }))
              { prisonerId := uid, oldOwner := none, newOwner := some r,
                pricePaid := 0, timestamp := now })
          else (true, insertNew db uid)).2) = true
        by_cases hr0 : r = 0
        · rw [if_neg (fun hc : r ≠ 0 => hc hr0)]
          exact noSelfOwner_insertNew db uid hdb
        · rcases href r rfl with hc | hrne
          · exact absurd hc hr0
          · rw [if_pos hr0]
            rw [show ((true, appendHistory
                (updateUser (insertNew db uid) uid (fun a => { a with ownerId := some r }))
                { prisonerId := uid, oldOwner := none, newOwner := some r,
                  pricePaid := 0, timestamp := now }) : Bool × DB).2
              = appendHistory
                (updateUser (insertNew db uid) uid (fun a => { a with ownerId := some r }))
                { prisonerId := uid, oldOwner := none, newOwner := some r,
                  pricePaid := 0, timestamp := now } from rfl]
            rw [noSelfOwner_appendHistory]
            apply noSelfOwner_updateUser_owner_ne _ uid
              (fun a => { a with ownerId := some r })
              (fun a h => hrne (Option.some_injective _ h))
            exact noSelfOwner_insertNew db uid hdb

def dbEmpty : DB := mkDB []

/-- Counterexample for C3 as stated: creating account 5 with referrer 5
sets the account's owner reference to itself — create_user applies no
self-exclusion check. -/
theorem c3_counterexample :
    (create_user 5 (some 5) 0 dbEmpty).1 = true ∧
    ownerOf (create_user 5 (some 5) 0 dbEmpty).2 5 = some (some 5) ∧
    noSelfOwner (create_user 5 (some 5) 0 dbEmpty).2 = false := by
  refine ⟨by decide, by decide, by decide⟩

def dbC3 : DB := mkDB [(1, freeAcct 300 100), (2, ownedAcct 300 100 1)]

/-- Witness for C3: the amended preservation applied to a concrete
SelfLiberation and a concrete creation with a distinct referrer. -/
theorem c3_no_self_owner_witness :
    noSelfOwner ((runOp (Op.selfLib 2 0) dbC3).db) = true ∧
    noSelfOwner (create_user 7 (some 1) 0 dbC3).2 = true :=
  ⟨c3_no_self_owner.1 (Op.selfLib 2 0) dbC3 (by decide),
   c3_no_self_owner.2 7 (some 1) 0 dbC3 (by decide)
     (fun r hr => Or.inr (fun hc => by cases hr; cases hc))⟩

/-! ## Claim C8 -/

def trackOf (db : DB) (pid : Nat) : Option UpgradeTrack := findTrack db.upgrades pid

def dbC8 : DB := mkDB [(1, freeAcct 1000 100), (2, ownedAcct 300 100 1)]

/-- C8: upgrade progression follows the exact arithmetic from the fixed
start. On a fresh asset the lazily-created track is level 1, multiplier
1.0, next cost 100, invested 0; one successful Upgrade yields level 2,
multiplier 1.20 (= 6/5), next cost 150, invested 100; a second yields
level 3, multiplier 1.44 (= 36/25), next cost 225, invested 250 —
multiplier rounded to 2 decimals each step, next cost multiplied by 1.5
and truncated to an integer. -/
theorem c8_upgrade_progression :
    (get_prisoner_upgrade_info dbC8 2).1
        = { level := 1, multiplier := 1, nextCost := 100, invested := 0 } ∧
    (upgrade_prisoner 1 2 dbC8).isOk = true ∧
    trackOf (upgrade_prisoner 1 2 dbC8).db 2
        = some { level := 2, multiplier := 6/5, nextCost := 150, invested := 100 } ∧
    (upgrade_prisoner 1 2 (upgrade_prisoner 1 2 dbC8).db).isOk = true ∧
    trackOf (upgrade_prisoner 1 2 (upgrade_prisoner 1 2 dbC8).db).db 2
        = some { level := 3, multiplier := 36/25, nextCost := 225, invested := 250 } := by
  refine ⟨by decide, by decide, ?_, by decide, ?_⟩
  · norm_num [upgrade_prisoner, upgradeApply, get_prisoner_upgrade_info, setTrack, nextTrack,
      trackOf, findTrack, round2, updateUser, get_user, findUser, dbC8, mkDB, ownedAcct,
      freeAcct, EngineResult.db]
  · norm_num [upgrade_prisoner, upgradeApply, get_prisoner_upgrade_info, setTrack, nextTrack,
      trackOf, findTrack, round2, updateUser, get_user, findUser, dbC8, mkDB, ownedAcct,
      freeAcct, EngineResult.db, updRow]

/-! ## Claim C7 -/

lemma get_user_appendHistory (d : DB) (r : OwnRecord) (x : Nat) :
    get_user (appendHistory d r) x = get_user d x := rfl

/-- C7 (amended): for an asset whose owner id is truthy (non-zero; a
stored owner 0 is falsy to `if not user['owner_id']:` and the call
returns "already free" at once), buy_self_freedom checks funds BEFORE
the shield, so with balance below its price it fails with
InsufficientFunds even while a shield is active; with sufficient funds
and an unexpired shield it fails with Shielded, and — unlike Purchase,
whose check_shield_status lazily clears — its shield check performs no
write: an expired shield pair is left in place, yet the operation
succeeds after expiry with no explicit deactivate call, the released
account keeping its stale shield fields. -/
theorem c7_selfliberation_shield (uid now : Nat) (db : DB) (user : Account) (oldOwner : Nat)
    (hu : get_user db uid = some user) (hown : user.ownerId = some oldOwner)
    (hown0 : ¬ oldOwner = 0) :
    (user.balance < (user.price : Int) →
      buy_self_freedom uid now db = .err .insufficientFunds db)
    ∧ (¬ user.balance < (user.price : Int) →
        user.shieldActive = true → ∀ t, user.shieldUntil = some t → now < t →
        buy_self_freedom uid now db = .err .shielded db)
    ∧ (¬ user.balance < (user.price : Int) →
        ∀ t, user.shieldUntil = some t → t ≤ now →
        buy_self_freedom uid now db = .ok (selfFreeApply uid now db user.price oldOwner)
        ∧ get_user (selfFreeApply uid now db user.price oldOwner) uid
            = some { user with ownerId := none, balance := user.balance - (user.price : Int) }) := by
  have hshape : buy_self_freedom uid now db
      = (if user.balance < (user.price : Int)
          then .err .insufficientFunds db
          else if (user.shieldActive &&
              (match user.shieldUntil with
               | some t => decide (now < t)
               | none => false)) = true
            then .err .shielded db
            else .ok (selfFreeApply uid now db user.price oldOwner)) := by
    unfold buy_self_freedom
    simp only [hu, hown]
    rw [if_neg hown0]
  refine ⟨?_, ?_, ?_⟩
  · intro hbal
    rw [hshape, if_pos hbal]
  · intro hbal hsa t ht hlt
    rw [hshape, if_neg hbal, if_pos (by rw [hsa, ht]; simpa using hlt)]
  · intro hbal t ht hle
    constructor
    · rw [hshape, if_neg hbal, if_neg (by rw [ht]; simp [Nat.not_lt.mpr hle])]
    · unfold selfFreeApply
      rw [get_user_appendHistory, get_user_updateUser, if_pos rfl, hu]
      rfl

def dbC7 : DB := mkDB [(1, freeAcct 300 100),
  (2, { balance := 50, price := 100, ownerId := some 1, points := 0,
        shieldActive := true, shieldUntil := some 1000 })]

/-- Counterexample for C7 as stated: asset 2 is owned, its shield
expiry (1000) lies in the future of the call time (0), yet
SelfLiberation fails with InsufficientFunds — not Shielded — because
its balance (50) is below its price (100): the funds check runs before
the shield check. -/
theorem c7_counterexample :
    (buy_self_freedom 2 0 dbC7).errCode = some .insufficientFunds ∧
    (buy_self_freedom 2 0 dbC7).errCode ≠ some .shielded := by
  refine ⟨by decide, by decide⟩

def expiredShieldAcct : Account :=
  { balance := 500, price := 100, ownerId := some 1, points := 0,
    shieldActive := true, shieldUntil := some 10 }

def dbC7b : DB := mkDB [(1, freeAcct 300 100), (2, expiredShieldAcct)]

/-- Witness for C7: at time 20 the shield of account 2 (expiry 10) has
lapsed; SelfLiberation succeeds with no deactivate call, and the
released account still carries the stale shield pair. -/
theorem c7_selfliberation_shield_witness :
    buy_self_freedom 2 20 dbC7b
      = .ok (selfFreeApply 2 20 dbC7b expiredShieldAcct.price 1)
    ∧ get_user (selfFreeApply 2 20 dbC7b expiredShieldAcct.price 1) 2
        = some { expiredShieldAcct with ownerId := none, balance := expiredShieldAcct.balance - (expiredShieldAcct.price : Int) } :=
  (c7_selfliberation_shield 2 20 dbC7b expiredShieldAcct 1
    (by decide) (by decide) (by decide)).2.2 (by decide) 10 (by decide) (by decide)

/-! ## Claim C1 -/

lemma balanceOf_updateUser_balance_eq (db : DB) (k : Nat) (f : Account → Account)
    (hf : ∀ a, (f a).balance = a.balance) (x : Nat) :
    balanceOf (updateUser db k f) x = balanceOf db x := by
  rw [balanceOf_updateUser]
  by_cases hx : x = k
  · rw [if_pos hx]
    subst hx
    unfold balanceOf
    cases get_user db x with
    | none => rfl
    | some a => simp [Option.map, hf]
  · rw [if_neg hx]

lemma balanceOf_updateUser_ne (db : DB) (k x : Nat) (f : Account → Account) (hx : ¬ x = k) :
    balanceOf (updateUser db k f) x = balanceOf db x := by
  rw [balanceOf_updateUser, if_neg hx]

lemma balanceOf_appendHistory (d : DB) (r : OwnRecord) (x : Nat) :
    balanceOf (appendHistory d r) x = balanceOf d x := rfl

lemma totalBalance_appendHistory (d : DB) (r : OwnRecord) :
    totalBalance (appendHistory d r) = totalBalance d := rfl

lemma totalBalance_setTrack (d : DB) (pid : Nat) (t : UpgradeTrack) :
    totalBalance (setTrack d pid t) = totalBalance d := rfl

lemma keys_appendHistory (d : DB) (r : OwnRecord) :
    (appendHistory d r).users.map Prod.fst = d.users.map Prod.fst := rfl

lemma get_user_isSome_updateUser (db : DB) (k x : Nat) (f : Account → Account) :
    (get_user (updateUser db k f) x).isSome = (get_user db x).isSome := by
  rw [get_user_updateUser]
  by_cases hx : x = k
  · rw [if_pos hx]
    subst hx
    cases get_user db x <;> rfl
  · rw [if_neg hx]

lemma econView_some (db : DB) (x : Nat) (a : Account) (h : get_user db x = some a) :
    econView db x = some (a.balance, a.price, a.ownerId) := by
  unfold econView
  rw [h]
  rfl

/-- Extracts an account with the same economic view from an
econView equation. -/
lemma econView_eq_elim (d1 d2 : DB) (x : Nat) (a : Account)
    (hev : econView d1 x = econView d2 x) (h : get_user d2 x = some a) :
    ∃ a1, get_user d1 x = some a1 ∧ a1.balance = a.balance ∧
      a1.price = a.price ∧ a1.ownerId = a.ownerId := by
  rw [econView_some d2 x a h] at hev
  unfold econView at hev
  cases h1 : get_user d1 x with
  | none =>
    rw [h1] at hev
    cases hev
  | some a1 =>
    rw [h1] at hev
    simp only [Option.map_some', Option.some.injEq] at hev
    exact ⟨a1, rfl, congrArg (fun t => t.1) hev,
      congrArg (fun t => t.2.1) hev, congrArg (fun t => t.2.2) hev⟩

lemma conservation_transfer (fromId toId : Nat) (amount : Int) (db db' : DB)
    (hnd : (db.users.map Prod.fst).Nodup) (hto : (get_user db toId).isSome = true)
    (h : transfer_money fromId toId amount db = .ok db') :
    totalBalance db' = totalBalance db := by
  rcases transfer_money_ok_inv fromId toId amount db db' h with ⟨sender, hf, hb, hdb'⟩
  subst hdb'
  set db1 := updateUser db fromId (fun a => { a with balance := a.balance - amount }) with hdb1
  have h1 : totalBalance db1 = totalBalance db + (sender.balance - amount - sender.balance) :=
    totalBalance_updateUser_some db fromId _ sender hnd hf
  have hkeys : db1.users.map Prod.fst = db.users.map Prod.fst := keys_updateUser db fromId _
  have hto1 : (get_user db1 toId).isSome = true := by
    rw [hdb1, get_user_isSome_updateUser]
    exact hto
  cases hr : get_user db1 toId with
  | none =>
    rw [hr] at hto1
    cases hto1
  | some receiver =>
    have h2 : totalBalance (updateUser db1 toId
        (fun a => { a with balance := a.balance + amount }))
        = totalBalance db1 + (receiver.balance + amount - receiver.balance) :=
      totalBalance_updateUser_some db1 toId _ receiver (hkeys ▸ hnd) hr
    rw [h2, h1]
    ring

lemma totalBalance_eq_of_users_eq (d1 d2 : DB) (h : d1.users = d2.users) :
    totalBalance d1 = totalBalance d2 := by
  unfold totalBalance
  rw [h]

lemma creditOldOwner_some_ne (db : DB) (o : Nat) (price : Nat) (ho0 : ¬ o = 0) :
    creditOldOwner db (some o) price
      = updateUser db o (fun a => { a with balance := a.balance + (price : Int) }) := by
  show (if o ≠ 0 then updateUser db o
    (fun a => { a with balance := a.balance + (price : Int) }) else db)
    = updateUser db o (fun a => { a with balance := a.balance + (price : Int) })
  rw [if_pos ho0]

lemma creditOldOwner_some_zero (db : DB) (price : Nat) :
    creditOldOwner db (some 0) price = db := rfl

lemma buyApply_shape_some (b p now o : Nat) (db1 : DB) (price : Nat) (ho0 : ¬ o = 0) :
    buyApply b p now db1 price (some o)
      = updateUser (appendHistory (updateUser (updateUser (updateUser db1 p
          (fun a => { a with ownerId := some b, price := bumpedPrice db1 p now price })) b
          (fun a => { a with balance := a.balance - (price : Int) })) o
          (fun a => { a with balance := a.balance + (price : Int) }))
          { prisonerId := p, oldOwner := some o, newOwner := some b,
            pricePaid := price, timestamp := now }) b
          (fun a => { a with points := a.points + (price : ℚ) / 10000 }) := by
  unfold buyApply
  rw [creditOldOwner_some_ne _ _ _ ho0]

lemma buyApply_shape_zero (b p now : Nat) (db1 : DB) (price : Nat) :
    buyApply b p now db1 price (some 0)
      = updateUser (appendHistory (updateUser (updateUser db1 p
          (fun a => { a with ownerId := some b, price := bumpedPrice db1 p now price })) b
          (fun a => { a with balance := a.balance - (price : Int) }))
          { prisonerId := p, oldOwner := some 0, newOwner := some b,
            pricePaid := price, timestamp := now }) b
          (fun a => { a with points := a.points + (price : ℚ) / 10000 }) := rfl

lemma buyApply_shape_none (b p now : Nat) (db1 : DB) (price : Nat) :
    buyApply b p now db1 price none
      = updateUser (appendHistory (updateUser (updateUser db1 p
          (fun a => { a with ownerId := some b, price := bumpedPrice db1 p now price })) b
          (fun a => { a with balance := a.balance - (price : Int) }))
          { prisonerId := p, oldOwner := none, newOwner := some b,
            pricePaid := price, timestamp := now }) b
          (fun a => { a with points := a.points + (price : ℚ) / 10000 }) := rfl

lemma totalBalance_buyApply_some (b p now o : Nat) (db1 : DB) (price : Nat)
    (hnd1 : (db1.users.map Prod.fst).Nodup)
    (hbp : ¬ b = p) (hob : ¬ o = b) (ho0 : ¬ o = 0)
    (pr1 : Account) (h1 : get_user db1 p = some pr1)
    (buyer : Account) (hbuyer : get_user db1 b = some buyer)
    (ho1 : (get_user db1 o).isSome = true) :
    totalBalance (buyApply b p now db1 price (some o)) = totalBalance db1
    ∧ balanceOf (buyApply b p now db1 price (some o)) b
        = some (buyer.balance - (price : Int))
    ∧ ∀ oa, get_user db1 o = some oa →
        balanceOf (buyApply b p now db1 price (some o)) o
          = some (oa.balance + (price : Int)) := by
  rw [buyApply_shape_some _ _ _ _ _ _ ho0]
  set setf : Account → Account :=
    fun a => { a with ownerId := some b, price := bumpedPrice db1 p now price } with hsetf
  set debitf : Account → Account :=
    fun a => { a with balance := a.balance - (price : Int) } with hdebitf
  set creditf : Account → Account :=
    fun a => { a with balance := a.balance + (price : Int) } with hcreditf
  set pointsf : Account → Account :=
    fun a => { a with points := a.points + (price : ℚ) / 10000 } with hpointsf
  set stage1 := updateUser db1 p setf with hstage1
  set stage2 := updateUser stage1 b debitf with hstage2
  set stage3 := updateUser stage2 o creditf with hstage3
  have hk1 : stage1.users.map Prod.fst = db1.users.map Prod.fst := keys_updateUser _ _ _
  have hk2 : stage2.users.map Prod.fst = db1.users.map Prod.fst := by
    rw [hstage2, keys_updateUser, hk1]
  have hgb1 : get_user stage1 b = some buyer := by
    rw [hstage1, get_user_updateUser, if_neg hbp]
    exact hbuyer
  have hgo2 : get_user stage2 o = if o = p then some (setf pr1) else get_user db1 o := by
    rw [hstage2, get_user_updateUser, if_neg hob, hstage1, get_user_updateUser]
    by_cases hop : o = p
    · rw [if_pos hop, if_pos hop, h1]
      rfl
    · rw [if_neg hop, if_neg hop]
  constructor
  · have ht1 : totalBalance stage1 = totalBalance db1 :=
      totalBalance_updateUser_balance_eq db1 p setf (fun a => rfl)
    have ht2 : totalBalance stage2 = totalBalance stage1 + (buyer.balance - price - buyer.balance) :=
      totalBalance_updateUser_some stage1 b debitf buyer (hk1 ▸ hnd1) hgb1
    have ht3 : totalBalance stage3 = totalBalance stage2 + price := by
      by_cases hop : o = p
      · rw [hstage3]
        rw [totalBalance_updateUser_some stage2 o creditf (setf pr1) (hk2 ▸ hnd1)
          (by rw [hgo2, if_pos hop])]
        have : (creditf (setf pr1)).balance - (setf pr1).balance = price := by
          simp [hcreditf]
        rw [this]
      · cases hoa : get_user db1 o with
        | none =>
          rw [hoa] at ho1
          cases ho1
        | some oa =>
          rw [hstage3]
          rw [totalBalance_updateUser_some stage2 o creditf oa (hk2 ▸ hnd1)
            (by rw [hgo2, if_neg hop, hoa])]
          have : (creditf oa).balance - oa.balance = price := by
            simp [hcreditf]
          rw [this]
    rw [totalBalance_updateUser_balance_eq _ b pointsf (fun a => rfl),
      totalBalance_appendHistory, ht3, ht2, ht1]
    ring
  constructor
  · rw [balanceOf_updateUser_balance_eq _ b pointsf (fun a => rfl),
      balanceOf_appendHistory, hstage3, balanceOf_updateUser_ne _ o b creditf
        (fun hh => hob hh.symm),
      hstage2, balanceOf_updateUser, if_pos rfl, hgb1]
    rfl
  · intro oa hoa
    rw [balanceOf_updateUser_balance_eq _ b pointsf (fun a => rfl),
      balanceOf_appendHistory, hstage3, balanceOf_updateUser, if_pos rfl, hgo2]
    by_cases hop : o = p
    · rw [if_pos hop]
      have : oa = pr1 := by
        rw [hop, h1] at hoa
        exact (Option.some.injEq _ _ ▸ hoa.symm)
      rw [this]
      rfl
    · rw [if_neg hop, hoa]
      rfl

lemma totalBalance_buyApply_none (b p now : Nat) (db1 : DB) (price : Nat)
    (hnd1 : (db1.users.map Prod.fst).Nodup) (hbp : ¬ b = p)
    (buyer : Account) (hbuyer : get_user db1 b = some buyer) :
    totalBalance (buyApply b p now db1 price none)
      = totalBalance db1 - (price : Int)
    ∧ balanceOf (buyApply b p now db1 price none) b
        = some (buyer.balance - (price : Int)) := by
  rw [buyApply_shape_none]
  set setf : Account → Account :=
    fun a => { a with ownerId := some b, price := bumpedPrice db1 p now price } with hsetf
  set debitf : Account → Account :=
    fun a => { a with balance := a.balance - (price : Int) } with hdebitf
  set pointsf : Account → Account :=
    fun a => { a with points := a.points + (price : ℚ) / 10000 } with hpointsf
  set stage1 := updateUser db1 p setf with hstage1
  set stage2 := updateUser stage1 b debitf with hstage2
  have hk1 : stage1.users.map Prod.fst = db1.users.map Prod.fst := keys_updateUser _ _ _
  have hgb1 : get_user stage1 b = some buyer := by
    rw [hstage1, get_user_updateUser, if_neg hbp]
    exact hbuyer
  constructor
  · have ht1 : totalBalance stage1 = totalBalance db1 :=
      totalBalance_updateUser_balance_eq db1 p setf (fun a => rfl)
    have ht2 : totalBalance stage2
        = totalBalance stage1 + (buyer.balance - price - buyer.balance) :=
      totalBalance_updateUser_some stage1 b debitf buyer (hk1 ▸ hnd1) hgb1
    rw [totalBalance_updateUser_balance_eq _ b pointsf (fun a => rfl),
      totalBalance_appendHistory, ht2, ht1]
    ring
  · rw [balanceOf_updateUser_balance_eq _ b pointsf (fun a => rfl),
      balanceOf_appendHistory, hstage2, balanceOf_updateUser, if_pos rfl, hgb1]
    rfl

lemma totalBalance_buyApply_zero (b p now : Nat) (db1 : DB) (price : Nat)
    (hnd1 : (db1.users.map Prod.fst).Nodup) (hbp : ¬ b = p)
    (buyer : Account) (hbuyer : get_user db1 b = some buyer) :
    totalBalance (buyApply b p now db1 price (some 0))
      = totalBalance db1 - (price : Int)
    ∧ balanceOf (buyApply b p now db1 price (some 0)) b
        = some (buyer.balance - (price : Int)) := by
  rw [buyApply_shape_zero]
  set setf : Account → Account :=
    fun a => { a with ownerId := some b, price := bumpedPrice db1 p now price } with hsetf
  set debitf : Account → Account :=
    fun a => { a with balance := a.balance - (price : Int) } with hdebitf
  set pointsf : Account → Account :=
    fun a => { a with points := a.points + (price : ℚ) / 10000 } with hpointsf
  set stage1 := updateUser db1 p setf with hstage1
  set stage2 := updateUser stage1 b debitf with hstage2
  have hk1 : stage1.users.map Prod.fst = db1.users.map Prod.fst := keys_updateUser _ _ _
  have hgb1 : get_user stage1 b = some buyer := by
    rw [hstage1, get_user_updateUser, if_neg hbp]
    exact hbuyer
  constructor
  · have ht1 : totalBalance stage1 = totalBalance db1 :=
      totalBalance_updateUser_balance_eq db1 p setf (fun a => rfl)
    have ht2 : totalBalance stage2
        = totalBalance stage1 + (buyer.balance - price - buyer.balance) :=
      totalBalance_updateUser_some stage1 b debitf buyer (hk1 ▸ hnd1) hgb1
    rw [totalBalance_updateUser_balance_eq _ b pointsf (fun a => rfl),
      totalBalance_appendHistory, ht2, ht1]
    ring
  · rw [balanceOf_updateUser_balance_eq _ b pointsf (fun a => rfl),
      balanceOf_appendHistory, hstage2, balanceOf_updateUser, if_pos rfl, hgb1]
    rfl

lemma conservation_buy_owned (b p now : Nat) (db db' : DB) (prisoner : Account) (o : Nat)
    (hnd : (db.users.map Prod.fst).Nodup) (hp : get_user db p = some prisoner)
    (hown : prisoner.ownerId = some o) (ho0 : ¬ o = 0)
    (ho : (get_user db o).isSome = true)
    (h : buy_prisoner b p now db = .ok db') :
    totalBalance db' = totalBalance db
    ∧ (∀ ba, get_user db b = some ba →
        balanceOf db' b = some (ba.balance - (prisoner.price : Int)))
    ∧ (∀ oa, get_user db o = some oa →
        balanceOf db' o = some (oa.balance + (prisoner.price : Int))) := by
  rcases buy_prisoner_ok_inv b p now db db' h with
    ⟨pr0, hp0, hbp, hownb, hflag, buyer, hbuyer, hbal, hdb'⟩
  rw [hp] at hp0
  injection hp0 with he
  subst he
  rw [hown] at hdb'
  subst hdb'
  set db1 := (check_shield_status db p now).2 with hdb1
  have hnd1 : (db1.users.map Prod.fst).Nodup := by
    rw [hdb1, check_shield_status_keys]
    exact hnd
  have htb1 : totalBalance db1 = totalBalance db :=
    check_shield_status_totalBalance db p now
  have hob : ¬ o = b := fun hh => hownb (by rw [hown, hh])
  rcases econView_eq_elim db1 db p prisoner
    (check_shield_status_econView db p now p) hp with ⟨pr1, hpr1, _, _, _⟩
  cases hoa0 : get_user db o with
  | none =>
    rw [hoa0] at ho
    cases ho
  | some oa0 =>
    rcases econView_eq_elim db1 db o oa0
      (check_shield_status_econView db p now o) hoa0 with ⟨oa1, hoa1, hoa1b, _, _⟩
    have ho1 : (get_user db1 o).isSome = true := by
      rw [hoa1]
      rfl
    have main := totalBalance_buyApply_some b p now o db1 prisoner.price hnd1 hbp hob ho0
      pr1 hpr1 buyer hbuyer ho1
    refine ⟨main.1.trans htb1, ?_, ?_⟩
    · intro ba hba
      rcases econView_eq_elim db1 db b ba
        (check_shield_status_econView db p now b) hba with ⟨ba1, hba1, hba1b, _, _⟩
      rw [hba1] at hbuyer
      injection hbuyer with he2
      subst he2
      rw [main.2.1, hba1b]
    · intro oa hoa
      injection hoa with he3
      subst he3
      rw [main.2.2 oa1 hoa1, hoa1b]

lemma conservation_buy_unowned (b p now : Nat) (db db' : DB) (prisoner : Account)
    (hnd : (db.users.map Prod.fst).Nodup) (hp : get_user db p = some prisoner)
    (hown : prisoner.ownerId = none)
    (h : buy_prisoner b p now db = .ok db') :
    totalBalance db' = totalBalance db - (prisoner.price : Int)
    ∧ (∀ ba, get_user db b = some ba →
        balanceOf db' b = some (ba.balance - (prisoner.price : Int))) := by
  rcases buy_prisoner_ok_inv b p now db db' h with
    ⟨pr0, hp0, hbp, hownb, hflag, buyer, hbuyer, hbal, hdb'⟩
  rw [hp] at hp0
  injection hp0 with he
  subst he
  rw [hown] at hdb'
  subst hdb'
  set db1 := (check_shield_status db p now).2 with hdb1
  have hnd1 : (db1.users.map Prod.fst).Nodup := by
    rw [hdb1, check_shield_status_keys]
    exact hnd
  have htb1 : totalBalance db1 = totalBalance db :=
    check_shield_status_totalBalance db p now
  have main := totalBalance_buyApply_none b p now db1 prisoner.price hnd1 hbp buyer hbuyer
  refine ⟨by rw [main.1, htb1], ?_⟩
  intro ba hba
  rcases econView_eq_elim db1 db b ba
    (check_shield_status_econView db p now b) hba with ⟨ba1, hba1, hba1b, _, _⟩
  rw [hba1] at hbuyer
  injection hbuyer with he2
  subst he2
  rw [main.2, hba1b]

lemma conservation_buy_falsy (b p now : Nat) (db db' : DB) (prisoner : Account)
    (hnd : (db.users.map Prod.fst).Nodup) (hp : get_user db p = some prisoner)
    (hown : prisoner.ownerId = some 0)
    (h : buy_prisoner b p now db = .ok db') :
    totalBalance db' = totalBalance db - (prisoner.price : Int) := by
  rcases buy_prisoner_ok_inv b p now db db' h with
    ⟨pr0, hp0, hbp, hownb, hflag, buyer, hbuyer, hbal, hdb'⟩
  rw [hp] at hp0
  injection hp0 with he
  subst he
  rw [hown] at hdb'
  subst hdb'
  set db1 := (check_shield_status db p now).2 with hdb1
  have hnd1 : (db1.users.map Prod.fst).Nodup := by
    rw [hdb1, check_shield_status_keys]
    exact hnd
  have htb1 : totalBalance db1 = totalBalance db :=
    check_shield_status_totalBalance db p now
  have main := totalBalance_buyApply_zero b p now db1 prisoner.price hnd1 hbp buyer hbuyer
  rw [main.1, htb1]

lemma conservation_selffree (uid now : Nat) (db db' : DB) (user : Account)
    (hnd : (db.users.map Prod.fst).Nodup) (hu : get_user db uid = some user)
    (h : buy_self_freedom uid now db = .ok db') :
    totalBalance db' = totalBalance db - (user.price : Int) := by
  rcases buy_self_freedom_ok_inv uid now db db' h with
    ⟨user0, oldOwner, hu0, hown, hbal, hdb'⟩
  rw [hu] at hu0
  injection hu0 with he
  subst he
  subst hdb'
  unfold selfFreeApply
  rw [totalBalance_appendHistory,
    totalBalance_updateUser_some db uid _ user hnd hu]
  show totalBalance db + (user.balance - (user.price : Int) - user.balance)
      = totalBalance db - (user.price : Int)
  ring

lemma conservation_upgrade (o p : Nat) (db db' : DB)
    (hnd : (db.users.map Prod.fst).Nodup)
    (h : upgrade_prisoner o p db = .ok db') :
    totalBalance db' = totalBalance db
      - (((get_prisoner_upgrade_info db p).1.nextCost : Nat) : Int) := by
  rcases upgrade_prisoner_ok_inv o p db db' h with
    ⟨pr, owner, hp, hown, howner, hbal, hdb'⟩
  subst hdb'
  unfold upgradeApply
  set db1 := (get_prisoner_upgrade_info db p).2 with hdb1
  set info := (get_prisoner_upgrade_info db p).1 with hinfo
  have husers : db1.users = db.users := get_prisoner_upgrade_info_users db p
  have hnd1 : (db1.users.map Prod.fst).Nodup := by
    rw [husers]
    exact hnd
  rw [totalBalance_updateUser_balance_eq _ p
    (fun a => { a with price := a.price + 4 * info.nextCost / 5 }) (fun a => rfl),
    totalBalance_setTrack,
    totalBalance_updateUser_some db1 o _ owner hnd1 howner,
    totalBalance_eq_of_users_eq db1 db husers]
  show totalBalance db + (owner.balance - (info.nextCost : Int) - owner.balance)
      = totalBalance db - (info.nextCost : Int)
  ring

/-- C1 (amended): the total of all account balances is conserved by
Transfer (when the receiver row exists) and by Purchase of an asset
whose previous owner id is truthy (non-zero), where the buyer is
debited by exactly the price and the previous owner credited by
exactly the price; but Purchase of an unowned asset, Purchase of an
asset whose stored owner id is 0 (falsy to `if old_owner_id:`, so the
sale credit is skipped), SelfLiberation, and Upgrade each debit with
no credit leg, decreasing the total by exactly the price (respectively
the upgrade cost) — money leaves the system through them. Stated over
states whose account ids are distinct, as the primary key guarantees. -/
theorem c1_conservation :
    (∀ (fromId toId : Nat) (amount : Int) (db db' : DB),
        (db.users.map Prod.fst).Nodup → (get_user db toId).isSome = true →
        transfer_money fromId toId amount db = .ok db' →
        totalBalance db' = totalBalance db)
    ∧ (∀ (b p now : Nat) (db db' : DB) (prisoner : Account) (o : Nat),
        (db.users.map Prod.fst).Nodup → get_user db p = some prisoner →
        prisoner.ownerId = some o → ¬ o = 0 → (get_user db o).isSome = true →
        buy_prisoner b p now db = .ok db' →
        totalBalance db' = totalBalance db
        ∧ (∀ ba, get_user db b = some ba →
            balanceOf db' b = some (ba.balance - (prisoner.price : Int)))
        ∧ (∀ oa, get_user db o = some oa →
            balanceOf db' o = some (oa.balance + (prisoner.price : Int))))
    ∧ (∀ (b p now : Nat) (db db' : DB) (prisoner : Account),
        (db.users.map Prod.fst).Nodup → get_user db p = some prisoner →
        prisoner.ownerId = none →
        buy_prisoner b p now db = .ok db' →
        totalBalance db' = totalBalance db - (prisoner.price : Int))
    ∧ (∀ (b p now : Nat) (db db' : DB) (prisoner : Account),
        (db.users.map Prod.fst).Nodup → get_user db p = some prisoner →
        prisoner.ownerId = some 0 →
        buy_prisoner b p now db = .ok db' →
        totalBalance db' = totalBalance db - (prisoner.price : Int))
    ∧ (∀ (uid now : Nat) (db db' : DB) (user : Account),
        (db.users.map Prod.fst).Nodup → get_user db uid = some user →
        buy_self_freedom uid now db = .ok db' →
        totalBalance db' = totalBalance db - (user.price : Int))
    ∧ (∀ (o p : Nat) (db db' : DB),
        (db.users.map Prod.fst).Nodup →
        upgrade_prisoner o p db = .ok db' →
        totalBalance db' = totalBalance db
          - (((get_prisoner_upgrade_info db p).1.nextCost : Nat) : Int)) :=
  ⟨conservation_transfer,
   fun b p now db db' prisoner o hnd hp hown ho0 ho h =>
     conservation_buy_owned b p now db db' prisoner o hnd hp hown ho0 ho h,
   fun b p now db db' prisoner hnd hp hown h =>
     (conservation_buy_unowned b p now db db' prisoner hnd hp hown h).1,
   conservation_buy_falsy,
   conservation_selffree,
   conservation_upgrade⟩

def dbC1 : DB := mkDB [(1, freeAcct 300 100), (2, ownedAcct 90 80 1), (3, freeAcct 500 60)]

/-- Counterexample for C1 as stated: SelfLiberation of account 2 (price
80) succeeds and the total of all balances drops from 890 to 810 — the
debit has no credit leg, so the total is not invariant. -/
theorem c1_counterexample :
    (buy_self_freedom 2 0 dbC1).isOk = true ∧
    totalBalance dbC1 = 890 ∧
    totalBalance (buy_self_freedom 2 0 dbC1).db = 810 ∧
    totalBalance (buy_self_freedom 2 0 dbC1).db ≠ totalBalance dbC1 := by
  refine ⟨by decide, by decide, by decide, by decide⟩

def dbC1z : DB := mkDB [(1, freeAcct 300 100), (4, ownedAcct 70 40 0)]

/-- Witness for C1: each amended conservation equation evaluated on a
concrete state; the falsy-owner equation on a state whose asset 4
carries the stored owner id 0. -/
theorem c1_conservation_witness :
    totalBalance (transfer_money 1 3 100 dbC1).db = totalBalance dbC1
    ∧ totalBalance (buy_prisoner 3 2 0 dbC1).db = totalBalance dbC1
    ∧ totalBalance (buy_prisoner 1 3 0 dbC1).db
        = totalBalance dbC1 - ((freeAcct 500 60).price : Int)
    ∧ totalBalance (buy_prisoner 1 4 0 dbC1z).db
        = totalBalance dbC1z - ((ownedAcct 70 40 0).price : Int)
    ∧ totalBalance (buy_self_freedom 2 0 dbC1).db
        = totalBalance dbC1 - ((ownedAcct 90 80 1).price : Int)
    ∧ totalBalance (upgrade_prisoner 1 2 dbC1).db
        = totalBalance dbC1 - (((get_prisoner_upgrade_info dbC1 2).1.nextCost : Nat) : Int) :=
  ⟨c1_conservation.1 1 3 100 dbC1 _ (by decide) (by decide) rfl,
   (c1_conservation.2.1 3 2 0 dbC1 _ (ownedAcct 90 80 1) 1 (by decide) (by decide)
     (by decide) (by decide) (by decide) rfl).1,
   c1_conservation.2.2.1 1 3 0 dbC1 _ (freeAcct 500 60) (by decide) (by decide)
     (by decide) rfl,
   c1_conservation.2.2.2.1 1 4 0 dbC1z _ (ownedAcct 70 40 0) (by decide) (by decide)
     (by decide) rfl,
   c1_conservation.2.2.2.2.1 2 0 dbC1 _ (ownedAcct 90 80 1) (by decide) (by decide) rfl,
   c1_conservation.2.2.2.2.2 1 2 dbC1 _ (by decide) rfl⟩

/-! ## Claim C4 -/

lemma allNonneg_appendHistory (d : DB) (r : OwnRecord) :
    allNonneg (appendHistory d r) = allNonneg d := rfl

lemma allNonneg_setTrack (d : DB) (pid : Nat) (t : UpgradeTrack) :
    allNonneg (setTrack d pid t) = allNonneg d := rfl

lemma allNonneg_eq_of_users_eq (d1 d2 : DB) (h : d1.users = d2.users) :
    allNonneg d1 = allNonneg d2 := by
  unfold allNonneg
  rw [h]

lemma allNonneg_buyApply (b p now : Nat) (db1 : DB) (price : Nat) (oldOwner : Option Nat)
    (hnd1 : (db1.users.map Prod.fst).Nodup) (hbp : ¬ b = p)
    (buyer : Account) (hbuyer : get_user db1 b = some buyer)
    (hbal : ¬ buyer.balance < (price : Int)) (hdb1 : allNonneg db1 = true) :
    allNonneg (buyApply b p now db1 price oldOwner) = true := by
  have hstage1 : allNonneg (updateUser db1 p
      (fun a => { a with ownerId := some b, price := bumpedPrice db1 p now price })) = true :=
    allNonneg_updateUser_pointwise db1 p _ (fun a ha => ha) hdb1
  have hk1 := keys_updateUser db1 p
    (fun a => { a with ownerId := some b, price := bumpedPrice db1 p now price })
  have hgb1 : get_user (updateUser db1 p
      (fun a => { a with ownerId := some b, price := bumpedPrice db1 p now price })) b
      = some buyer := by
    rw [get_user_updateUser, if_neg hbp]
    exact hbuyer
  have hstage2 : allNonneg (updateUser (updateUser db1 p
      (fun a => { a with ownerId := some b, price := bumpedPrice db1 p now price })) b
      (fun a => { a with balance := a.balance - (price : Int) })) = true :=
    allNonneg_updateUser_some _ b _ buyer (hk1 ▸ hnd1) hgb1
      (by simpa using Int.sub_nonneg.mpr (not_lt.mp hbal)) hstage1
  cases oldOwner with
  | none =>
    rw [buyApply_shape_none]
    apply allNonneg_updateUser_pointwise _ b
      (fun a => { a with points := a.points + (price : ℚ) / 10000 }) (fun a ha => ha)
    rw [allNonneg_appendHistory]
    exact hstage2
  | some o =>
    by_cases ho0 : o = 0
    · subst ho0
      rw [buyApply_shape_zero]
      apply allNonneg_updateUser_pointwise _ b
        (fun a => { a with points := a.points + (price : ℚ) / 10000 }) (fun a ha => ha)
      rw [allNonneg_appendHistory]
      exact hstage2
    · rw [buyApply_shape_some _ _ _ _ _ _ ho0]
      apply allNonneg_updateUser_pointwise _ b
        (fun a => { a with points := a.points + (price : ℚ) / 10000 }) (fun a ha => ha)
      rw [allNonneg_appendHistory]
      apply allNonneg_updateUser_pointwise _ o
        (fun a => { a with balance := a.balance + (price : Int) })
        (fun a ha => add_nonneg ha (Int.natCast_nonneg price))
      exact hstage2

/-- C4 (amended): starting from a state with distinct ids and every
balance nonnegative, Purchase, SelfLiberation, ShieldActivate, and
Upgrade leave every balance nonnegative (each checks sufficiency before
its debit), and so does Transfer for every nonnegative amount; but
Transfer performs no amount-sign check, and a negative amount debits
the receiver unchecked, driving the receiver below zero (see the
counterexample). -/
theorem c4_balances_nonneg (op : Op) (db : DB)
    (hnd : (db.users.map Prod.fst).Nodup) (hdb : allNonneg db = true)
    (hamt : match op with | .transfer _ _ amt => 0 ≤ amt | _ => True) :
    allNonneg ((runOp op db).db) = true := by
  cases hres : runOp op db with
  | err e db' =>
    rw [EngineResult.db]
    cases op with
    | purchase b p now =>
      rcases buy_prisoner_err_inv b p now db db' e hres with h1 | h1
      · rw [h1]
        exact hdb
      · rw [h1]
        exact check_shield_status_allNonneg db p now hdb
    | selfLib u now =>
      rw [buy_self_freedom_err_inv u now db db' e hres]
      exact hdb
    | shield o p now =>
      rw [activate_shield_err_inv o p now db db' e hres]
      exact hdb
    | upgrade o p =>
      rcases upgrade_prisoner_err_inv o p db db' e hres with h1 | h1
      · rw [h1]
        exact hdb
      · rw [h1, allNonneg_eq_of_users_eq _ db (get_prisoner_upgrade_info_users db p)]
        exact hdb
    | transfer f t amt =>
      rw [transfer_money_err_inv f t amt db db' e hres]
      exact hdb
  | ok db' =>
    rw [EngineResult.db]
    cases op with
    | purchase b p now =>
      rcases buy_prisoner_ok_inv b p now db db' hres with
        ⟨pr0, hp0, hbp, hownb, hflag, buyer, hbuyer, hbal, hdb'⟩
      rw [hdb']
      exact allNonneg_buyApply b p now _ pr0.price pr0.ownerId
        (by rw [check_shield_status_keys]; exact hnd) hbp buyer hbuyer hbal
        (check_shield_status_allNonneg db p now hdb)
    | selfLib u now =>
      rcases buy_self_freedom_ok_inv u now db db' hres with
        ⟨user, oldOwner, hu, hown, hbal, hdb'⟩
      rw [hdb']
      unfold selfFreeApply
      rw [allNonneg_appendHistory]
      exact allNonneg_updateUser_some db u _ user hnd hu
        (by simpa using Int.sub_nonneg.mpr (not_lt.mp hbal)) hdb
    | shield o p now =>
      rcases activate_shield_ok_inv o p now db db' hres with
        ⟨pr, owner, hp, hown, howner, hbal, hdb'⟩
      rw [hdb']
      unfold shieldApply
      have hk1 := keys_updateUser db p
        (fun a => { a with shieldActive := true, shieldUntil := some (now + 86400) })
      have hstage1 : allNonneg (updateUser db p
          (fun a => { a with shieldActive := true, shieldUntil := some (now + 86400) })) = true :=
        allNonneg_updateUser_pointwise db p
          (fun a => { a with shieldActive := true, shieldUntil := some (now + 86400) })
          (fun a ha => ha) hdb
      have hbal0 : (0 : Int) ≤ owner.balance - ((7 * pr.price / 20 : Nat) : Int) :=
        Int.sub_nonneg.mpr (not_lt.mp hbal)
      by_cases hop : o = p
      · subst hop
        rw [hp] at howner
        injection howner with he
        subst he
        have hgo2 : get_user (updateUser db o
            (fun a => { a with shieldActive := true, shieldUntil := some (now + 86400) })) o
            = some { pr with shieldActive := true, shieldUntil := some (now + 86400) } := by
          rw [get_user_updateUser, if_pos rfl, hp]
          rfl
        exact allNonneg_updateUser_some _ o
          (fun a => { a with balance := a.balance - ((7 * pr.price / 20 : Nat) : Int) })
          { pr with shieldActive := true, shieldUntil := some (now + 86400) }
          (hk1 ▸ hnd) hgo2 (by simpa using hbal0) hstage1
      · have hgo2 : get_user (updateUser db p
            (fun a => { a with shieldActive := true, shieldUntil := some (now + 86400) })) o
            = some owner := by
          rw [get_user_updateUser, if_neg hop]
          exact howner
        exact allNonneg_updateUser_some _ o
          (fun a => { a with balance := a.balance - ((7 * pr.price / 20 : Nat) : Int) })
          owner (hk1 ▸ hnd) hgo2 (by simpa using hbal0) hstage1
    | upgrade o p =>
      rcases upgrade_prisoner_ok_inv o p db db' hres with
        ⟨pr, owner, hp, hown, howner, hbal, hdb'⟩
      rw [hdb']
      unfold upgradeApply
      set db1 := (get_prisoner_upgrade_info db p).2 with hdb1
      have husers : db1.users = db.users := get_prisoner_upgrade_info_users db p
      have hnd1 : (db1.users.map Prod.fst).Nodup := by
        rw [husers]
        exact hnd
      have hdbn1 : allNonneg db1 = true := by
        rw [allNonneg_eq_of_users_eq db1 db husers]
        exact hdb
      apply allNonneg_updateUser_pointwise _ p
        (fun a => { a with price := a.price + 4 * (get_prisoner_upgrade_info db p).1.nextCost / 5 })
        (fun a ha => ha)
      rw [allNonneg_setTrack]
      exact allNonneg_updateUser_some db1 o
        (fun a => { a with balance := a.balance - (((get_prisoner_upgrade_info db p).1.nextCost : Nat) : Int) })
        owner hnd1 howner
        (by simpa using Int.sub_nonneg.mpr (not_lt.mp hbal)) hdbn1
    | transfer f t amt =>
      rcases transfer_money_ok_inv f t amt db db' hres with ⟨sender, hf, hb, hdb'⟩
      rw [hdb']
      have hk1 := keys_updateUser db f (fun a => { a with balance := a.balance - amt })
      have hstage1 : allNonneg (updateUser db f
          (fun a => { a with balance := a.balance - amt })) = true :=
        allNonneg_updateUser_some db f _ sender hnd hf
          (by simpa using Int.sub_nonneg.mpr (not_lt.mp hb)) hdb
      exact allNonneg_updateUser_pointwise _ t
        (fun a => { a with balance := a.balance + amt })
        (fun a ha => add_nonneg ha hamt) hstage1

def dbC4 : DB := mkDB [(1, freeAcct 300 100), (2, freeAcct 0 100)]

/-- Counterexample for C4 as stated: a Transfer with the negative
amount -10 passes the sufficiency check (300 < -10 is false), succeeds,
and debits the receiver unchecked: account 2 ends at balance -10. -/
theorem c4_counterexample :
    allNonneg dbC4 = true ∧
    (transfer_money 1 2 (-10) dbC4).isOk = true ∧
    balanceOf (transfer_money 1 2 (-10) dbC4).db 2 = some (-10) ∧
    allNonneg (transfer_money 1 2 (-10) dbC4).db = false := by
  refine ⟨by decide, by decide, by decide, by decide⟩

/-- Witness for C4: the amended preservation evaluated on a concrete
Purchase and a concrete nonnegative Transfer. -/
theorem c4_balances_nonneg_witness :
    allNonneg ((runOp (Op.purchase 1 2 0) dbC4).db) = true ∧
    allNonneg ((runOp (Op.transfer 1 2 50) dbC4).db) = true :=
  ⟨c4_balances_nonneg (Op.purchase 1 2 0) dbC4 (by decide) (by decide) trivial,
   c4_balances_nonneg (Op.transfer 1 2 50) dbC4 (by decide) (by decide) (by decide)⟩

/-! ## Claim C9 -/

/-- The claim's readiness notion: an incomplete assignment of the owner
whose end time has passed (the code additionally joins on the users
table; the two agree whenever every assignment's prisoner row exists). -/
def readySpecB (ownerId now : Nat) (a : WorkAssignment) : Bool :=
  decide (a.ownerId = ownerId) && !a.completed && decide (a.endTime ≤ now)

lemma readyJob_eq (db : DB) (ownerId now : Nat) (a : WorkAssignment) :
    readyJob db ownerId now a
      = (readySpecB ownerId now a && (get_user db a.prisonerId).isSome) := rfl

lemma filter_ready_eq (db : DB) (o now : Nat)
    (hjoin : ∀ a ∈ db.assignments, (get_user db a.prisonerId).isSome = true) :
    db.assignments.filter (readyJob db o now)
      = db.assignments.filter (readySpecB o now) := by
  apply List.filter_congr
  intro a ha
  rw [readyJob_eq, hjoin a ha, Bool.and_true]

lemma get_user_markReady (db : DB) (o now x : Nat) :
    get_user (markReady db o now) x = get_user db x := rfl

lemma balanceOf_collectApply (db : DB) (o now : Nat) (acct : Account)
    (hacct : get_user db o = some acct) :
    balanceOf (collectApply o now db) o
      = some (acct.balance + (collectTotal db o now : Int)) := by
  unfold collectApply balanceOf
  rw [get_user_updateUser, if_pos rfl, get_user_markReady, hacct]
  rfl

/-- C9: CollectRewards fails with NothingReady when the owner has no
incomplete assignment whose end time has passed; otherwise it credits
the owner exactly once with the sum of the expected rewards of all such
ready assignments, marks each of them complete, and an immediately
repeated call fails with NothingReady — the same reward is never
credited twice. Stated for states in which every assignment's prisoner
row exists (rows are never deleted), so the code's users join drops
nothing. -/
theorem c9_collect_rewards (o now : Nat) (db : DB) (acct : Account)
    (hjoin : ∀ a ∈ db.assignments, (get_user db a.prisonerId).isSome = true)
    (hacct : get_user db o = some acct) :
    ((db.assignments.filter (readySpecB o now)).isEmpty = true →
      collect_work_rewards o now db = .err .nothingReady db)
    ∧ ((db.assignments.filter (readySpecB o now)).isEmpty = false →
      ∃ db', collect_work_rewards o now db = .ok db'
        ∧ balanceOf db' o = some (acct.balance +
            ((((db.assignments.filter (readySpecB o now)).map
              (fun a => a.expectedReward)).sum : Nat) : Int))
        ∧ db'.assignments = db.assignments.map
            (fun a => if readySpecB o now a then { a with completed := true } else a)
        ∧ collect_work_rewards o now db' = .err .nothingReady db') := by
  have hfe : db.assignments.filter (readyJob db o now)
      = db.assignments.filter (readySpecB o now) := filter_ready_eq db o now hjoin
  constructor
  · intro hemp
    apply collect_work_rewards_empty
    rw [hfe]
    exact hemp
  · intro hne
    refine ⟨collectApply o now db, ?_, ?_, ?_, ?_⟩
    · unfold collect_work_rewards
      rw [if_neg (by rw [hfe, hne]; exact Bool.false_ne_true)]
    · rw [balanceOf_collectApply db o now acct hacct]
      unfold collectTotal
      rw [hfe]
    · show db.assignments.map
          (fun a => if readyJob db o now a then { a with completed := true } else a)
        = db.assignments.map
          (fun a => if readySpecB o now a then { a with completed := true } else a)
      apply List.map_congr_left
      intro a ha
      rw [readyJob_eq, hjoin a ha, Bool.and_true]
    · apply collect_work_rewards_empty
      have hass : (collectApply o now db).assignments
          = db.assignments.map
              (fun a => if readyJob db o now a then { a with completed := true } else a) := rfl
      have hnil : (collectApply o now db).assignments.filter
          (readyJob (collectApply o now db) o now) = [] := by
        rw [List.filter_eq_nil_iff]
        intro a' ha'
        rw [hass] at ha'
        rcases List.mem_map.mp ha' with ⟨a, ha, rfl⟩
        by_cases hsp : readyJob db o now a = true
        · rw [if_pos hsp]
          intro hcon
          rw [readyJob_eq, Bool.and_eq_true] at hcon
          have hspec := hcon.1
          simp [readySpecB] at hspec
        · rw [if_neg hsp]
          rw [readyJob_eq, hjoin a ha, Bool.and_true] at hsp
          intro hcon
          rw [readyJob_eq, Bool.and_eq_true] at hcon
          exact hsp hcon.1
      rw [hnil]
      rfl

def dbC9 : DB :=
  { users := [(1, freeAcct 100 100), (2, ownedAcct 0 100 1)],
    upgrades := [], history := [],
    assignments := [{ ownerId := 1, prisonerId := 2, endTime := 50,
                      expectedReward := 7, completed := false }] }

/-- Witness for C9: one ready assignment (end time 50, call time 100)
is collected exactly once, marked complete, and the immediate second
call fails with NothingReady. -/
theorem c9_collect_rewards_witness :
    ∃ db', collect_work_rewards 1 100 dbC9 = .ok db'
      ∧ balanceOf db' 1 = some ((freeAcct 100 100).balance +
          ((((dbC9.assignments.filter (readySpecB 1 100)).map
            (fun a => a.expectedReward)).sum : Nat) : Int))
      ∧ db'.assignments = dbC9.assignments.map
          (fun a => if readySpecB 1 100 a then { a with completed := true } else a)
      ∧ collect_work_rewards 1 100 db' = .err .nothingReady db' :=
  (c9_collect_rewards 1 100 dbC9 (freeAcct 100 100) (by decide) (by decide)).2 (by decide)
